import Mathlib

/-!
Verification development for the Monetizelt cloud-functions backend
(`src/index.js`).  The settlement/lifecycle core is shallowly embedded:
Firestore collections become lists of records, monetary amounts become exact
rationals (the source computes with JavaScript numbers; all amounts in the
claims are small decimals, modelled exactly), times are integer epoch
milliseconds, and every handler becomes a pure state-transformer on a `DB`
record.  External effects (Stripe, PayPal, SendGrid, object storage) are
modelled as explicit parameters (`fileExists`, `networkOk`) or as append-only
logs in the state (`networkCalls`, `notices`).
-/

/- ===================== Business constants (src/index.js:62-81) ===================== -/

/-- Product time-to-live: 7 days in milliseconds (src/index.js:62). -/
def PRODUCT_TTL_MS : Int := 7 * 24 * 60 * 60 * 1000

/-- PayPal payout fee rate 0.0349 (src/index.js:74). -/
def PAYPAL_FEE_RATE : ℚ := 349 / 10000

/-- PayPal payout fixed fee 0.49 (src/index.js:75). -/
def PAYPAL_FEE_FIXED : ℚ := 49 / 100

/-- Platform commission rate 0.12 (src/index.js:78). -/
def PLATFORM_RATE : ℚ := 12 / 100

/-- Minimum payout threshold 10 (src/index.js:81). -/
def MIN_PAYOUT : ℚ := 10

/-- Estimated Stripe fee rate 0.029 (src/index.js:2169). -/
def STRIPE_FEE_RATE : ℚ := 29 / 1000

/-- Estimated Stripe fixed fee 0.30 (src/index.js:2170). -/
def STRIPE_FEE_FIXED : ℚ := 3 / 10

/- ===================== isEmail (src/index.js:85-87) ===================== -/

/-- Character class `[^\s@]` of the e-mail regex: not whitespace, not `@`. -/
def isEmailChar (c : Char) : Bool := !c.isWhitespace && c != '@'

/-- Models `isEmail` (src/index.js:85-87): the lowercased string must match
`/^[^\s@]+@[^\s@]+\.[^\s@]+$/`, i.e. it splits at a unique `@` into a nonempty
local part and a domain that contains a `.` with nonempty text on both sides,
all characters outside the whitespace/`@` classes. -/
def isEmail (s : String) : Bool :=
  match (s.toList.map Char.toLower).splitOn '@' with
  | [a, b] =>
      !a.isEmpty && a.all isEmailChar &&
      b.all isEmailChar &&
      ((b.drop 1).dropLast.contains '.')
  | _ => false

/- ===================== Data model ===================== -/

/-- Device info as produced by `extractDeviceInfo` (src/index.js:93-104); the
user-agent parsing itself is external, so handlers take the extracted record
as input. -/
structure DeviceInfo where
  browser : String
  os : String
  device : String
  userAgent : String
deriving DecidableEq

/-- The minimal device info the Stripe webhook stores on a new order
(src/index.js:2177-2182): no user agent is available there. -/
def unknownDevice : DeviceInfo :=
  { browser := "Unknown", os := "Unknown", device := "Unknown", userAgent := "" }

/-- A document of the `products` collection (created at src/index.js:1338-1351). -/
structure Product where
  pid : String
  uid : String
  price : ℚ
  coverPath : String
  filePath : String
  createdAt : Int
  expiresAt : Option Int
  sales : Nat
  revenue : ℚ
deriving DecidableEq

/-- A document of the `paymentSessions` collection (created at
src/index.js:1960-1965). -/
structure PaymentSession where
  sid : String
  email : String
  productId : String
  completed : Bool
  orderId : Option String
deriving DecidableEq

/-- A document of the `orders` collection (created at src/index.js:2184-2201). -/
structure Order where
  oid : String
  productId : String
  productTitle : String
  buyerEmail : String
  sellerUid : String
  amount : ℚ
  stripeFee : ℚ
  commission : ℚ
  sellerAmount : ℚ
  status : String
  accessToken : String
  deviceInfo : Option DeviceInfo
deriving DecidableEq

/-- A document of the `transactions` ledger collection
(sale: src/index.js:2216-2230; payout: src/index.js:471-480). -/
structure Txn where
  userId : String
  type : String
  amount : ℚ
  grossAmount : ℚ
deriving DecidableEq

/-- A document of the `payoutHistory` collection (src/index.js:459-468). -/
structure PayoutRecord where
  userId : String
  amount : ℚ
  grossAmount : ℚ
  payoutFee : ℚ
  paypalEmail : String
  status : String
deriving DecidableEq

/-- A document of the `payoutErrors` collection (src/index.js:503-511 and
src/index.js:898-904). -/
structure PayoutError where
  userId : String
  amount : ℚ
  paypalEmail : String
deriving DecidableEq

/-- A document of the `users` collection, restricted to the fields the
settlement core reads. -/
structure UserDoc where
  uid : String
  email : Option String
  paypalEmail : Option String
  balance : ℚ
deriving DecidableEq

/-- A document of the `productViews` collection (src/index.js:1876-1880). -/
structure ProductView where
  productId : String
  sellerUid : String
deriving DecidableEq

/-- A document of the `accessLogs` collection (src/index.js:2392-2398). -/
structure AccessLog where
  orderId : String
  productId : String
deriving DecidableEq

/-- A document of the `accessAttempts` collection (src/index.js:2361-2367). -/
structure AccessAttempt where
  orderId : String
  allowed : Bool
deriving DecidableEq

/-- A document of the `emailSentLogs` collection (src/index.js:804-811). -/
structure EmailSentLog where
  productId : String
  sellerUid : String
deriving DecidableEq

/-- A document of the `linkGenerationDetails` collection (src/index.js:155-165). -/
structure LinkGenDetail where
  uid : String
  productId : String
deriving DecidableEq

/-- An outbound e-mail recorded when `sendEmailNotification` is invoked
(src/index.js:180-411); the kind is the `emailType` argument. -/
structure Notice where
  kind : String
  email : String
deriving DecidableEq

/-- The Firestore state visible to the settlement core, plus the append-only
logs of external calls (`networkCalls` records the PayPal payout requests with
the receiver address and the net amount the wire carries, before its
two-decimal string formatting; `notices` records the e-mails sent). -/
structure DB where
  products : List Product
  paymentSessions : List PaymentSession
  orders : List Order
  users : List UserDoc
  transactions : List Txn
  payoutHistory : List PayoutRecord
  payoutErrors : List PayoutError
  productViews : List ProductView
  accessLogs : List AccessLog
  accessAttempts : List AccessAttempt
  emailSentLogs : List EmailSentLog
  linkGenerationDetails : List LinkGenDetail
  notices : List Notice
  networkCalls : List (String × ℚ)
deriving DecidableEq

/- ===================== Read helpers ===================== -/

/-- Balance of the user document with the given id, 0 when absent
(Firestore read `users/{uid}.balance`, cf. `Number(user.balance || 0)`). -/
def balanceOf (db : DB) (uid : String) : ℚ :=
  match db.users.find? (fun u => u.uid == uid) with
  | some u => u.balance
  | none => 0

/-- The `sale` ledger lines of one user. -/
def saleTxnsFor (db : DB) (uid : String) : List Txn :=
  db.transactions.filter (fun t => t.userId == uid && t.type == "sale")

/-- The `payout` ledger lines of one user. -/
def payoutTxnsFor (db : DB) (uid : String) : List Txn :=
  db.transactions.filter (fun t => t.userId == uid && t.type == "payout")

/-- The `payoutHistory` records of one user. -/
def payoutRecordsFor (db : DB) (uid : String) : List PayoutRecord :=
  db.payoutHistory.filter (fun r => r.userId == uid)

/-- The `payoutErrors` records of one user. -/
def payoutErrorsFor (db : DB) (uid : String) : List PayoutError :=
  db.payoutErrors.filter (fun e => e.userId == uid)

/-- Expiration test used at every read gate:
`product.expiresAt && product.expiresAt.toDate() < new Date()`
(src/index.js:1864, 1955, 2011, 2151). -/
def productExpired (p : Product) (now : Int) : Bool :=
  match p.expiresAt with
  | some t => t < now
  | none => false

/- ===================== Fee calculator ===================== -/

/-- Sale fee split of the Stripe webhook (src/index.js:2167-2173):
returns `(stripeFee, commission, sellerAmount)`. -/
def computeSaleSplit (price : ℚ) : ℚ × ℚ × ℚ :=
  let stripeFee := price * STRIPE_FEE_RATE + STRIPE_FEE_FIXED
  let commission := price * PLATFORM_RATE
  (stripeFee, commission, price - stripeFee - commission)

/-- Payout fee of `processPayout` (src/index.js:417):
`PAYPAL_FEE_FIXED + amount * PAYPAL_FEE_RATE`. -/
def payoutFeeOf (amount : ℚ) : ℚ := PAYPAL_FEE_FIXED + amount * PAYPAL_FEE_RATE

/- ===================== Stripe webhook fulfillment (src/index.js:2092-2328) ===================== -/

/-- The metadata of a verified `checkout.session.completed` event
(src/index.js:2115-2122).  Signature verification and event-type dispatch
happen before this data exists, so the embedding starts from the verified
event. -/
structure StripeEvent where
  appSessionId : String
  productId : String
  sellerUid : String
  productTitle : String
  buyerEmail : String
  stripeSessionId : String

/-- Balance credit of the webhook (src/index.js:2208-2214):
`set({balance: increment(delta)}, {merge:true})`, which creates the user
document with `balance = delta` when it does not exist. -/
def setMergeBalance (users : List UserDoc) (uid : String) (delta : ℚ) : List UserDoc :=
  if users.any (fun u => u.uid == uid) then
    users.map (fun u => if u.uid == uid then { u with balance := u.balance + delta } else u)
  else
    users ++ [{ uid := uid, email := none, paypalEmail := none, balance := delta }]

/-- Fulfillment handler of `stripeWebhook` for a verified
`checkout.session.completed` event (src/index.js:2115-2255).  In order:
missing-metadata guard (2124-2128), idempotency check on the payment session
(2130-2141), product-presence and expiration check (2144-2155), asset check
(2157-2164), fee split (2166-2173), order creation (2184-2201), product
counters (2203-2206), balance credit (2208-2214), `sale` transaction append
(2216-2230), session completion (2251-2255).  `fileExists` models the storage
existence probe; `newOrderId`/`newAccessToken` model the generated ids.
User-stats projection writes and the notification e-mails (fire-and-forget)
are elided. -/
def stripeWebhook (db : DB) (ev : StripeEvent) (now : Int)
    (fileExists : String → Bool) (newOrderId newAccessToken : String) : DB :=
  if ev.appSessionId == "" || ev.productId == "" || ev.sellerUid == "" || ev.buyerEmail == "" then
    db
  else
    match db.paymentSessions.find? (fun s => s.sid == ev.appSessionId) with
    | none => db
    | some s =>
      if s.completed then db
      else
        match db.products.find? (fun p => p.pid == ev.productId) with
        | none => db
        | some product =>
          if productExpired product now then db
          else if !fileExists product.filePath then db
          else
            let split := computeSaleSplit product.price
            let stripeFee := split.1
            let commission := split.2.1
            let sellerAmount := split.2.2
            let order : Order :=
              { oid := newOrderId
                productId := ev.productId
                productTitle := ev.productTitle
                buyerEmail := ev.buyerEmail
                sellerUid := ev.sellerUid
                amount := product.price
                stripeFee := stripeFee
                commission := commission
                sellerAmount := sellerAmount
                status := "completed"
                accessToken := newAccessToken
                deviceInfo := some unknownDevice }
            { db with
              orders := db.orders ++ [order]
              products := db.products.map (fun p =>
                if p.pid == ev.productId then
                  { p with sales := p.sales + 1, revenue := p.revenue + sellerAmount }
                else p)
              users := setMergeBalance db.users ev.sellerUid sellerAmount
              transactions := db.transactions ++
                [{ userId := ev.sellerUid, type := "sale",
                   amount := sellerAmount, grossAmount := product.price }]
              paymentSessions := db.paymentSessions.map (fun t =>
                if t.sid == ev.appSessionId then
                  { t with completed := true, orderId := some newOrderId }
                else t) }

/- ===================== Batched deletion helper (src/index.js:168-176) ===================== -/

/-- Models `deleteQueryBatch` (src/index.js:169-176): the sizes of the write
batches it commits for a query result.  The source fetches the whole query
result, puts EVERY matching document into ONE `db.batch()` and commits it, so
a nonempty result of n documents yields a single batch of n deletes; the
comment above it (src/index.js:168) documents a 500-document cap that the code
does not enforce. -/
def deleteQueryBatchCommitSizes {α : Type} (matching : List α) : List Nat :=
  if matching.isEmpty then [] else [matching.length]

/- ===================== Product deletion cascade ===================== -/

/-- The per-product cascade shared (by copy) between `cleanupOldProducts`
(src/index.js:599-683) and `deleteProduct` (src/index.js:1644-1680): delete
the product's views, its orders' access logs and access attempts, the orders
themselves, its payment sessions, e-mail sent logs, link-generation details,
and finally the product document.  Storage-object deletion and stats
recomputation touch no modelled collection.  `transactions` and
`payoutHistory` are never referenced (src/index.js:624-625, 1663). -/
def cascadeDeleteProduct (db : DB) (productId : String) : DB :=
  let orderIds := (db.orders.filter (fun o => o.productId == productId)).map (fun o => o.oid)
  { db with
    productViews := db.productViews.filter (fun v => !(v.productId == productId))
    accessLogs := db.accessLogs.filter (fun l => !(orderIds.contains l.orderId))
    accessAttempts := db.accessAttempts.filter (fun a => !(orderIds.contains a.orderId))
    orders := db.orders.filter (fun o => !(o.productId == productId))
    paymentSessions := db.paymentSessions.filter (fun s => !(s.productId == productId))
    emailSentLogs := db.emailSentLogs.filter (fun e => !(e.productId == productId))
    linkGenerationDetails := db.linkGenerationDetails.filter (fun l => !(l.productId == productId))
    products := db.products.filter (fun p => !(p.pid == productId)) }

/-- The hourly expiration sweep `cleanupOldProducts` (src/index.js:557-735):
select products with `createdAt < now - PRODUCT_TTL_MS` (src/index.js:568-573)
and run the deletion cascade on each. -/
def cleanupOldProducts (db : DB) (now : Int) : DB :=
  let expiredIds := (db.products.filter (fun p => p.createdAt < now - PRODUCT_TTL_MS)).map
    (fun p => p.pid)
  expiredIds.foldl cascadeDeleteProduct db

/-- The explicit owner deletion endpoint `deleteProduct`
(src/index.js:1623-1725): 404 when the product is missing, 403 when the
requester does not own it, otherwise the same cascade; returns the state and
whether the deletion ran. -/
def deleteProduct (db : DB) (uid productId : String) : DB × Bool :=
  match db.products.find? (fun p => p.pid == productId) with
  | none => (db, false)
  | some p =>
    if p.uid == uid then (cascadeDeleteProduct db productId, true) else (db, false)

/- ===================== Payout processing (src/index.js:415-519, 835-952) ===================== -/

/-- Models `processPayout` (src/index.js:415-519).  Fee and net
(src/index.js:417-418); non-positive net throws before any write or network
call (src/index.js:419); the PayPal call carries the net amount
(src/index.js:438-447, recorded in `networkCalls`); on success the balance is
debited by the GROSS amount (src/index.js:453-456), a `payoutHistory` record
(src/index.js:459-468) and a `payout` transaction with `amount = net`,
`grossAmount = gross` (src/index.js:471-480) are appended; on PayPal failure a
`payoutErrors` record is appended (src/index.js:503-511) and the error is
rethrown.  The Bool result is true iff the payout succeeded. -/
def processPayout (db : DB) (userId : String) (amount : ℚ) (paypalEmail : String)
    (networkOk : Bool) : DB × Bool :=
  let payoutFee := payoutFeeOf amount
  let netAmount := amount - payoutFee
  if netAmount ≤ 0 then (db, false)
  else
    let db0 := { db with networkCalls := db.networkCalls ++ [(paypalEmail, netAmount)] }
    if networkOk then
      ({ db0 with
          users := db0.users.map (fun u =>
            if u.uid == userId then { u with balance := u.balance - amount } else u)
          payoutHistory := db0.payoutHistory ++
            [{ userId := userId, amount := netAmount, grossAmount := amount,
               payoutFee := payoutFee, paypalEmail := paypalEmail, status := "completed" }]
          transactions := db0.transactions ++
            [{ userId := userId, type := "payout",
               amount := netAmount, grossAmount := amount }] }, true)
    else
      ({ db0 with payoutErrors := db0.payoutErrors ++
          [{ userId := userId, amount := amount, paypalEmail := paypalEmail }] }, false)

/-- One iteration of the user loop of `processWeeklyPayouts`
(src/index.js:866-909): skip when the PayPal address is not a valid e-mail
(872-875) or the snapshot balance is below threshold (876); otherwise run
`processPayout` on the snapshot balance; on success send the payout
notification (887-892); on failure append a `payoutErrors` record (898-904)
and continue. -/
def weeklyStep (networkOk : String → Bool) (db : DB) (u : UserDoc) : DB :=
  match u.paypalEmail with
  | none => db
  | some pe =>
    if !isEmail pe then db
    else if u.balance < MIN_PAYOUT then db
    else
      let r := processPayout db u.uid u.balance pe (networkOk u.uid)
      if r.2 then
        { r.1 with notices := r.1.notices ++ [{ kind := "payout_notification", email := pe }] }
      else
        { r.1 with payoutErrors := r.1.payoutErrors ++
            [{ userId := u.uid, amount := u.balance, paypalEmail := pe }] }

/-- The eligible-user query of the weekly run (src/index.js:855-859):
`balance >= MIN_PAYOUT` and `paypalEmail != null`. -/
def eligibleUsers (db : DB) : List UserDoc :=
  db.users.filter (fun u => MIN_PAYOUT ≤ u.balance && u.paypalEmail.isSome)

/-- The low-balance query of the weekly run (src/index.js:911-916):
`0 < balance < MIN_PAYOUT` and `paypalEmail != null`. -/
def lowBalanceUsers (db : DB) : List UserDoc :=
  db.users.filter (fun u => 0 < u.balance && u.balance < MIN_PAYOUT && u.paypalEmail.isSome)

/-- One iteration of the low-balance loop (src/index.js:918-924): send the
below-minimum notice to the user's ACCOUNT e-mail, only when that e-mail is
present and valid. -/
def lowNoticeStep (db : DB) (u : UserDoc) : DB :=
  match u.email with
  | some e =>
    if isEmail e then
      { db with notices := db.notices ++ [{ kind := "min_balance_not_reached", email := e }] }
    else db
  | none => db

/-- The weekly payout batch `processWeeklyPayouts` (src/index.js:835-952):
process every user of the eligible query sequentially, then notify the users
of the low-balance query (evaluated on the post-payout state).  The
payout-session summary document is elided. -/
def processWeeklyPayouts (db : DB) (networkOk : String → Bool) : DB :=
  let db1 := (eligibleUsers db).foldl (weeklyStep networkOk) db
  (lowBalanceUsers db1).foldl lowNoticeStep db1

/- ===================== Buyer-facing read gates ===================== -/

/-- Response status of the read gate of `getProductDetails`
(src/index.js:1853-1866): 400 missing id, 404 absent, 410 expired, 200
otherwise (the product is returned to the buyer only on 200).  The
view/stat writes of the 200 branch are elided. -/
def getProductDetailsGate (db : DB) (now : Int) (productId : String) : Nat :=
  if productId == "" then 400
  else
    match db.products.find? (fun p => p.pid == productId) with
    | none => 404
    | some p => if productExpired p now then 410 else 200

/-- Response status of the gate of `collectBuyerEmail` (src/index.js:1945-1957):
400 on missing/invalid input, 404 absent product, 410 expired, 200 otherwise
(only on 200 is a payment session created). -/
def collectBuyerEmailGate (db : DB) (now : Int) (email productId : String) : Nat :=
  if email == "" || productId == "" then 400
  else if !isEmail email then 400
  else
    match db.products.find? (fun p => p.pid == productId) with
    | none => 404
    | some p => if productExpired p now then 410 else 200

/-- Response status of the gate of `createStripeCheckoutSession`
(src/index.js:1991-2013): 400 on missing input or consumed session, 404 on
absent session or product, 410 expired, 200 otherwise (only on 200 is a
checkout session created). -/
def createCheckoutSessionGate (db : DB) (now : Int) (productId sessionId : String) : Nat :=
  if productId == "" || sessionId == "" then 400
  else
    match db.paymentSessions.find? (fun s => s.sid == sessionId) with
    | none => 404
    | some s =>
      if s.completed then 400
      else
        match db.products.find? (fun p => p.pid == productId) with
        | none => 404
        | some p => if productExpired p now then 410 else 200

/- ===================== Content access (src/index.js:2332-2439) ===================== -/

/-- Outcome of `accessContent`: 200 with content, or the error statuses. -/
inductive AccessResult where
  | ok
  | badRequest
  | notFound
  | forbidden
deriving DecidableEq

/-- Browser string of `order.deviceInfo || {}` with the `|| ""` default
(src/index.js:2356-2358). -/
def storedBrowser (o : Order) : String :=
  match o.deviceInfo with
  | some d => d.browser
  | none => ""

/-- OS string of `order.deviceInfo || {}` with the `|| ""` default
(src/index.js:2356-2358). -/
def storedOs (o : Order) : String :=
  match o.deviceInfo with
  | some d => d.os
  | none => ""

/-- Models `accessContent` (src/index.js:2332-2439).  Look up the order by
access token (2347-2352); compare the extracted device info against
`order.deviceInfo || {}` on the browser and os strings (2354-2358); on
mismatch log a failed `accessAttempts` record and refuse (2360-2373); on match
load the product (2375-2377), log an `accessLogs` record (2392-2398) and flip
a `completed` order to `shipped` (2400-2413).  NOTE: no expiration check
occurs anywhere on this path.  `dev` is the result of `extractDeviceInfo` on
the caller's user agent; signed-URL issuance and the stats write are elided. -/
def accessContent (db : DB) (token : String) (dev : DeviceInfo) : AccessResult × DB :=
  if token == "" then (.badRequest, db)
  else
    match db.orders.find? (fun o => o.accessToken == token) with
    | none => (.notFound, db)
    | some order =>
      if !(dev.browser == storedBrowser order && dev.os == storedOs order) then
        (.forbidden,
         { db with accessAttempts := db.accessAttempts ++
             [{ orderId := order.oid, allowed := false }] })
      else
        match db.products.find? (fun p => p.pid == order.productId) with
        | none => (.notFound, db)
        | some _ =>
          let db1 := { db with accessLogs := db.accessLogs ++
            [{ orderId := order.oid, productId := order.productId }] }
          let db2 :=
            if order.status == "completed" then
              { db1 with orders := db1.orders.map (fun o =>
                  if o.oid == order.oid then { o with status := "shipped" } else o) }
            else db1
          (.ok, db2)

/- ===================== Settlement operation sequences (for the ledger invariant) ===================== -/

/-- One completed settlement step: a fulfilled payment event or a weekly
payout run. -/
inductive SettleOp where
  | sale (ev : StripeEvent) (now : Int) (fileExists : String → Bool) (oid tok : String)
  | payoutRun (networkOk : String → Bool)

/-- Apply one settlement operation. -/
def applySettleOp (db : DB) : SettleOp → DB
  | .sale ev now fe oid tok => stripeWebhook db ev now fe oid tok
  | .payoutRun nk => processWeeklyPayouts db nk

/-- Sum of the `amount` fields of a user's `sale` transactions. -/
def saleAmountSum (db : DB) (uid : String) : ℚ :=
  ((saleTxnsFor db uid).map (fun t => t.amount)).sum

/-- Sum of the `amount` fields of a user's `payout` transactions (the NET
amounts as stored, src/index.js:474). -/
def payoutAmountSum (db : DB) (uid : String) : ℚ :=
  ((payoutTxnsFor db uid).map (fun t => t.amount)).sum

/-- Sum of the `grossAmount` fields of a user's `payout` transactions
(src/index.js:475). -/
def payoutGrossSum (db : DB) (uid : String) : ℚ :=
  ((payoutTxnsFor db uid).map (fun t => t.grossAmount)).sum

/-- The ledger-balance invariant as the code maintains it: sale amounts minus
payout GROSS amounts equals the stored balance, for every user id. -/
def LedgerInv (db : DB) : Prop :=
  ∀ uid : String, saleAmountSum db uid - payoutGrossSum db uid = balanceOf db uid

/- ===================== Generic list lemmas ===================== -/

theorem find?_map_update {α : Type} (l : List α) (p : α → Bool) (g : α → α)
    (hg : ∀ x, p x = true → p (g x) = true) :
    (l.map (fun x => if p x then g x else x)).find? p = (l.find? p).map g := by
  induction l with
  | nil => rfl
  | cons a l ih =>
    by_cases h : p a = true
    · simp [List.find?_cons, h, hg a h]
    · simp [List.find?_cons, h, ih]

theorem find?_map_update_ne {α : Type} (l : List α) (p q : α → Bool) (g : α → α)
    (hpq : ∀ x, p x = true → q x = false)
    (hgq : ∀ x, q (g x) = q x) :
    (l.map (fun x => if p x then g x else x)).find? q = l.find? q := by
  induction l with
  | nil => rfl
  | cons a l ih =>
    by_cases h : p a = true
    · simp [List.find?_cons, h, hgq, hpq a h, ih]
    · simp [List.find?_cons, h, ih]

theorem filter_map_update_ne {α : Type} (l : List α) (p q : α → Bool) (g : α → α)
    (hgq : ∀ x, q (g x) = q x) (hgid : ∀ x, q x = true → g x = x) :
    (l.map (fun x => if p x then g x else x)).filter q = l.filter q := by
  induction l with
  | nil => rfl
  | cons a l ih =>
    by_cases h : p a = true
    · by_cases hq : q a = true
      · simp [h, hq, List.filter_cons, hgq, hgid a hq, ih]
      · simp [h, List.filter_cons, hgq, hq, ih]
    · simp [h, List.filter_cons, ih]

theorem find?_eq_none_of_any_eq_false {α : Type} (l : List α) (p : α → Bool)
    (h : l.any p = false) : l.find? p = none := by
  rw [List.find?_eq_none]
  intro x hx
  have := List.any_eq_false.mp h x hx
  simpa using this

/- ===================== Payment-session update lemmas ===================== -/

/-- After fulfillment, looking up the fulfilled session yields its completed
version. -/
theorem find?_sessions_after_complete (l : List PaymentSession) (sid oid : String) :
    (l.map (fun t => if t.sid == sid then { t with completed := true, orderId := some oid } else t)).find?
        (fun t => t.sid == sid)
      = (l.find? (fun t => t.sid == sid)).map
          (fun t => { t with completed := true, orderId := some oid }) := by
  apply find?_map_update
  intro x hx
  simpa using hx

/- ===================== Balance lemmas ===================== -/

theorem find?_setMergeBalance (users : List UserDoc) (uid : String) (d : ℚ) :
    (setMergeBalance users uid d).find? (fun u => u.uid == uid)
      = match users.find? (fun u => u.uid == uid) with
        | some u => some { u with balance := u.balance + d }
        | none => some { uid := uid, email := none, paypalEmail := none, balance := d } := by
  unfold setMergeBalance
  by_cases h : users.any (fun u => u.uid == uid) = true
  · rw [if_pos h]
    rw [find?_map_update users (fun u => u.uid == uid)
      (fun u => { u with balance := u.balance + d }) (fun x hx => hx)]
    have hsome : (users.find? (fun u => u.uid == uid)).isSome := by
      rw [List.find?_isSome]
      rcases List.any_eq_true.mp h with ⟨u, hu, hup⟩
      exact ⟨u, hu, hup⟩
    rcases Option.isSome_iff_exists.mp hsome with ⟨v, hv⟩
    rw [hv]
    rfl
  · rw [if_neg h]
    have hnone : users.find? (fun u => u.uid == uid) = none :=
      find?_eq_none_of_any_eq_false users _ (by simpa using h)
    rw [List.find?_append, hnone]
    simp

/- ===================== Webhook helper lemmas ===================== -/

theorem stripeWebhook_metadata_noop (db : DB) (ev : StripeEvent) (now : Int)
    (fe : String → Bool) (oid tok : String)
    (hm : (ev.appSessionId == "" || ev.productId == "" || ev.sellerUid == "" ||
        ev.buyerEmail == "") = true) :
    stripeWebhook db ev now fe oid tok = db := by
  unfold stripeWebhook
  simp [hm]

theorem stripeWebhook_session_absent_noop (db : DB) (ev : StripeEvent) (now : Int)
    (fe : String → Bool) (oid tok : String)
    (hs : db.paymentSessions.find? (fun x => x.sid == ev.appSessionId) = none) :
    stripeWebhook db ev now fe oid tok = db := by
  unfold stripeWebhook
  by_cases hm : (ev.appSessionId == "" || ev.productId == "" || ev.sellerUid == "" ||
      ev.buyerEmail == "") = true
  · simp [hm]
  · simp [hm, hs]

theorem stripeWebhook_completed_noop (db : DB) (ev : StripeEvent) (now : Int)
    (fe : String → Bool) (oid tok : String) (s : PaymentSession)
    (hs : db.paymentSessions.find? (fun x => x.sid == ev.appSessionId) = some s)
    (hc : s.completed = true) :
    stripeWebhook db ev now fe oid tok = db := by
  unfold stripeWebhook
  by_cases hm : (ev.appSessionId == "" || ev.productId == "" || ev.sellerUid == "" ||
      ev.buyerEmail == "") = true
  · simp [hm]
  · simp [hm, hs, hc]

/-- The exact result state of the webhook on the fulfillment path. -/
theorem stripeWebhook_fulfill (db : DB) (ev : StripeEvent) (now : Int)
    (fe : String → Bool) (oid tok : String) (s : PaymentSession) (product : Product)
    (hm : (ev.appSessionId == "" || ev.productId == "" || ev.sellerUid == "" ||
        ev.buyerEmail == "") = false)
    (hs : db.paymentSessions.find? (fun x => x.sid == ev.appSessionId) = some s)
    (hc : s.completed = false)
    (hp : db.products.find? (fun p => p.pid == ev.productId) = some product)
    (hexp : productExpired product now = false)
    (hfile : fe product.filePath = true) :
    stripeWebhook db ev now fe oid tok =
      { db with
        orders := db.orders ++
          [{ oid := oid, productId := ev.productId, productTitle := ev.productTitle,
             buyerEmail := ev.buyerEmail, sellerUid := ev.sellerUid,
             amount := product.price, stripeFee := (computeSaleSplit product.price).1,
             commission := (computeSaleSplit product.price).2.1,
             sellerAmount := (computeSaleSplit product.price).2.2,
             status := "completed", accessToken := tok,
             deviceInfo := some unknownDevice }]
        products := db.products.map (fun p =>
          if p.pid == ev.productId then
            { p with sales := p.sales + 1,
                     revenue := p.revenue + (computeSaleSplit product.price).2.2 }
          else p)
        users := setMergeBalance db.users ev.sellerUid (computeSaleSplit product.price).2.2
        transactions := db.transactions ++
          [{ userId := ev.sellerUid, type := "sale",
             amount := (computeSaleSplit product.price).2.2, grossAmount := product.price }]
        paymentSessions := db.paymentSessions.map (fun t =>
          if t.sid == ev.appSessionId then
            { t with completed := true, orderId := some oid }
          else t) } := by
  unfold stripeWebhook
  simp [hm, hs, hc, hp, hexp, hfile]

/-- C1: Idempotent fulfillment.  For every payment-completed webhook event:
if the referenced payment session is absent or already completed, the handler
acknowledges and changes nothing; on a first successful delivery it creates
exactly one order, appends exactly one `sale` transaction, credits the seller
balance exactly once, and marks the session completed; a second delivery of
the same event (at any later time, with any storage state) then changes
nothing, so the completed flag is never reverted and the order/credit/
transaction happen exactly once. -/
theorem stripeWebhook_idempotent_fulfillment
    (db : DB) (ev : StripeEvent) (now now2 : Int)
    (fe fe2 : String → Bool) (o1 t1 o2 t2 : String) :
    (db.paymentSessions.find? (fun x => x.sid == ev.appSessionId) = none →
        stripeWebhook db ev now fe o1 t1 = db) ∧
    (∀ s : PaymentSession,
        db.paymentSessions.find? (fun x => x.sid == ev.appSessionId) = some s →
        s.completed = true → stripeWebhook db ev now fe o1 t1 = db) ∧
    (∀ (s : PaymentSession) (product : Product),
        (ev.appSessionId == "" || ev.productId == "" || ev.sellerUid == "" ||
            ev.buyerEmail == "") = false →
        db.paymentSessions.find? (fun x => x.sid == ev.appSessionId) = some s →
        s.completed = false →
        db.products.find? (fun p => p.pid == ev.productId) = some product →
        productExpired product now = false →
        fe product.filePath = true →
        ((stripeWebhook db ev now fe o1 t1).orders.length = db.orders.length + 1 ∧
         saleTxnsFor (stripeWebhook db ev now fe o1 t1) ev.sellerUid =
           saleTxnsFor db ev.sellerUid ++
             [{ userId := ev.sellerUid, type := "sale",
                amount := (computeSaleSplit product.price).2.2,
                grossAmount := product.price }] ∧
         balanceOf (stripeWebhook db ev now fe o1 t1) ev.sellerUid =
           balanceOf db ev.sellerUid + (computeSaleSplit product.price).2.2 ∧
         (stripeWebhook db ev now fe o1 t1).paymentSessions.find?
             (fun x => x.sid == ev.appSessionId) =
           some { s with completed := true, orderId := some o1 } ∧
         stripeWebhook (stripeWebhook db ev now fe o1 t1) ev now2 fe2 o2 t2 =
           stripeWebhook db ev now fe o1 t1)) := by
  refine ⟨fun h => stripeWebhook_session_absent_noop db ev now fe o1 t1 h,
          fun s hs hc => stripeWebhook_completed_noop db ev now fe o1 t1 s hs hc,
          fun s product hm hs hc hp hexp hfile => ?_⟩
  have hw := stripeWebhook_fulfill db ev now fe o1 t1 s product hm hs hc hp hexp hfile
  have hsess : (stripeWebhook db ev now fe o1 t1).paymentSessions.find?
      (fun x => x.sid == ev.appSessionId) =
      some { s with completed := true, orderId := some o1 } := by
    rw [hw]
    simp only []
    rw [find?_sessions_after_complete db.paymentSessions ev.appSessionId o1, hs]
    rfl
  refine ⟨?_, ?_, ?_, hsess, ?_⟩
  · rw [hw]; simp
  · rw [hw]
    simp only [saleTxnsFor, List.filter_append]
    simp
  · rw [hw]
    simp only [balanceOf, find?_setMergeBalance]
    cases hf : db.users.find? (fun u => u.uid == ev.sellerUid) with
    | none => simp
    | some u => simp
  · exact stripeWebhook_completed_noop _ ev now2 fe2 o2 t2 _ hsess rfl

/- ===================== C8: batched deletion bound ===================== -/

set_option maxRecDepth 8000 in
/-- C8 (code_bug evidence): `deleteQueryBatch` commits ONE batch holding every
matching document, so a query matching 501 documents produces a single commit
of 501 deletes, exceeding the 500-write batch cap its own comment
(src/index.js:168) and the platform impose; the claimed per-batch bound fails. -/
theorem deleteQueryBatch_unbounded :
    deleteQueryBatchCommitSizes (List.replicate 501 (0 : Nat)) = [501] ∧
    ¬ (∀ n ∈ deleteQueryBatchCommitSizes (List.replicate 501 (0 : Nat)), n ≤ 500) := by
  have h1 : deleteQueryBatchCommitSizes (List.replicate 501 (0 : Nat)) = [501] := by
    unfold deleteQueryBatchCommitSizes
    simp
  refine ⟨h1, ?_⟩
  intro h
  have := h 501 (by rw [h1]; exact List.mem_singleton.mpr rfl)
  omega

/- ===================== Cleanup cascade lemmas ===================== -/

theorem foldl_cascade_keeps_absent {α : Type} (f : DB → List α) (k : α → String)
    (hsub : ∀ db q x, x ∈ f (cascadeDeleteProduct db q) → x ∈ f db)
    (L : List String) (db : DB) (pid : String)
    (h : ∀ x ∈ f db, k x ≠ pid) :
    ∀ x ∈ f (L.foldl cascadeDeleteProduct db), k x ≠ pid := by
  induction L generalizing db with
  | nil => exact h
  | cons a L ih =>
    exact ih (cascadeDeleteProduct db a) (fun x hx => h x (hsub db a x hx))

theorem foldl_cascade_absent {α : Type} (f : DB → List α) (k : α → String)
    (hsub : ∀ db q x, x ∈ f (cascadeDeleteProduct db q) → x ∈ f db)
    (hest : ∀ db pid x, x ∈ f (cascadeDeleteProduct db pid) → k x ≠ pid)
    (L : List String) (db : DB) (pid : String) (hpid : pid ∈ L) :
    ∀ x ∈ f (L.foldl cascadeDeleteProduct db), k x ≠ pid := by
  induction L generalizing db with
  | nil => cases hpid
  | cons a L ih =>
    rcases List.mem_cons.mp hpid with h | h
    · subst h
      exact foldl_cascade_keeps_absent f k hsub L (cascadeDeleteProduct db pid) pid
        (fun x hx => hest db pid x hx)
    · exact ih (cascadeDeleteProduct db a) h

theorem foldl_cascade_transactions (L : List String) (db : DB) :
    (L.foldl cascadeDeleteProduct db).transactions = db.transactions := by
  induction L generalizing db with
  | nil => rfl
  | cons a L ih => exact (ih (cascadeDeleteProduct db a)).trans rfl

theorem foldl_cascade_payoutHistory (L : List String) (db : DB) :
    (L.foldl cascadeDeleteProduct db).payoutHistory = db.payoutHistory := by
  induction L generalizing db with
  | nil => rfl
  | cons a L ih => exact (ih (cascadeDeleteProduct db a)).trans rfl

theorem cleanup_transactions (db : DB) (now : Int) :
    (cleanupOldProducts db now).transactions = db.transactions :=
  foldl_cascade_transactions _ db

theorem cleanup_payoutHistory (db : DB) (now : Int) :
    (cleanupOldProducts db now).payoutHistory = db.payoutHistory :=
  foldl_cascade_payoutHistory _ db

theorem deleteProduct_transactions (db : DB) (uid productId : String) :
    (deleteProduct db uid productId).1.transactions = db.transactions := by
  unfold deleteProduct
  cases h : db.products.find? (fun p => p.pid == productId) with
  | none => rfl
  | some p =>
    by_cases ho : (p.uid == uid) = true
    · simp [ho, cascadeDeleteProduct]
    · simp [ho]

theorem deleteProduct_payoutHistory (db : DB) (uid productId : String) :
    (deleteProduct db uid productId).1.payoutHistory = db.payoutHistory := by
  unfold deleteProduct
  cases h : db.products.find? (fun p => p.pid == productId) with
  | none => rfl
  | some p =>
    by_cases ho : (p.uid == uid) = true
    · simp [ho, cascadeDeleteProduct]
    · simp [ho]

theorem cascade_mem_products {db : DB} {q : String} {x : Product}
    (hx : x ∈ (cascadeDeleteProduct db q).products) : x ∈ db.products := by
  unfold cascadeDeleteProduct at hx
  exact List.mem_of_mem_filter hx

theorem cascade_products_ne {db : DB} {pid : String} {x : Product}
    (hx : x ∈ (cascadeDeleteProduct db pid).products) : x.pid ≠ pid := by
  unfold cascadeDeleteProduct at hx
  have := List.of_mem_filter hx
  simpa using this

theorem cascade_mem_orders {db : DB} {q : String} {x : Order}
    (hx : x ∈ (cascadeDeleteProduct db q).orders) : x ∈ db.orders := by
  unfold cascadeDeleteProduct at hx
  exact List.mem_of_mem_filter hx

theorem cascade_orders_ne {db : DB} {pid : String} {x : Order}
    (hx : x ∈ (cascadeDeleteProduct db pid).orders) : x.productId ≠ pid := by
  unfold cascadeDeleteProduct at hx
  have := List.of_mem_filter hx
  simpa using this

theorem cascade_mem_views {db : DB} {q : String} {x : ProductView}
    (hx : x ∈ (cascadeDeleteProduct db q).productViews) : x ∈ db.productViews := by
  unfold cascadeDeleteProduct at hx
  exact List.mem_of_mem_filter hx

theorem cascade_views_ne {db : DB} {pid : String} {x : ProductView}
    (hx : x ∈ (cascadeDeleteProduct db pid).productViews) : x.productId ≠ pid := by
  unfold cascadeDeleteProduct at hx
  have := List.of_mem_filter hx
  simpa using this

theorem cascade_mem_sessions {db : DB} {q : String} {x : PaymentSession}
    (hx : x ∈ (cascadeDeleteProduct db q).paymentSessions) : x ∈ db.paymentSessions := by
  unfold cascadeDeleteProduct at hx
  exact List.mem_of_mem_filter hx

theorem cascade_sessions_ne {db : DB} {pid : String} {x : PaymentSession}
    (hx : x ∈ (cascadeDeleteProduct db pid).paymentSessions) : x.productId ≠ pid := by
  unfold cascadeDeleteProduct at hx
  have := List.of_mem_filter hx
  simpa using this

theorem cascade_mem_emails {db : DB} {q : String} {x : EmailSentLog}
    (hx : x ∈ (cascadeDeleteProduct db q).emailSentLogs) : x ∈ db.emailSentLogs := by
  unfold cascadeDeleteProduct at hx
  exact List.mem_of_mem_filter hx

theorem cascade_emails_ne {db : DB} {pid : String} {x : EmailSentLog}
    (hx : x ∈ (cascadeDeleteProduct db pid).emailSentLogs) : x.productId ≠ pid := by
  unfold cascadeDeleteProduct at hx
  have := List.of_mem_filter hx
  simpa using this

theorem cascade_mem_linkgen {db : DB} {q : String} {x : LinkGenDetail}
    (hx : x ∈ (cascadeDeleteProduct db q).linkGenerationDetails) :
    x ∈ db.linkGenerationDetails := by
  unfold cascadeDeleteProduct at hx
  exact List.mem_of_mem_filter hx

theorem cascade_linkgen_ne {db : DB} {pid : String} {x : LinkGenDetail}
    (hx : x ∈ (cascadeDeleteProduct db pid).linkGenerationDetails) : x.productId ≠ pid := by
  unfold cascadeDeleteProduct at hx
  have := List.of_mem_filter hx
  simpa using this

/-- C2: Financial preservation.  Running the sweep over a state containing an
expired product removes the product document and every order, view, payment
session, e-mail sent log and link-generation detail referencing it, while the
`transactions` and `payoutHistory` collections are returned unchanged; the
explicit product-deletion endpoint likewise never changes those two
collections. -/
theorem cleanup_financial_preservation
    (db : DB) (now : Int) (p : Product)
    (hp : p ∈ db.products) (hexp : p.createdAt < now - PRODUCT_TTL_MS) :
    (cleanupOldProducts db now).transactions = db.transactions ∧
    (cleanupOldProducts db now).payoutHistory = db.payoutHistory ∧
    (∀ q ∈ (cleanupOldProducts db now).products, q.pid ≠ p.pid) ∧
    (∀ o ∈ (cleanupOldProducts db now).orders, o.productId ≠ p.pid) ∧
    (∀ v ∈ (cleanupOldProducts db now).productViews, v.productId ≠ p.pid) ∧
    (∀ s ∈ (cleanupOldProducts db now).paymentSessions, s.productId ≠ p.pid) ∧
    (∀ e ∈ (cleanupOldProducts db now).emailSentLogs, e.productId ≠ p.pid) ∧
    (∀ l ∈ (cleanupOldProducts db now).linkGenerationDetails, l.productId ≠ p.pid) ∧
    (∀ uid pid2, (deleteProduct db uid pid2).1.transactions = db.transactions ∧
      (deleteProduct db uid pid2).1.payoutHistory = db.payoutHistory) := by
  have hmem : p.pid ∈ (db.products.filter
      (fun q => q.createdAt < now - PRODUCT_TTL_MS)).map (fun q => q.pid) :=
    List.mem_map.mpr ⟨p, List.mem_filter.mpr ⟨hp, by simpa using hexp⟩, rfl⟩
  have hclean : cleanupOldProducts db now =
      ((db.products.filter (fun q => q.createdAt < now - PRODUCT_TTL_MS)).map
        (fun q => q.pid)).foldl cascadeDeleteProduct db := rfl
  refine ⟨?_, ?_, ?_, ?_, ?_, ?_, ?_, ?_, ?_⟩
  · exact cleanup_transactions db now
  · exact cleanup_payoutHistory db now
  · rw [hclean]
    exact foldl_cascade_absent (fun d => d.products) (fun q => q.pid)
      (fun _ _ _ hx => cascade_mem_products hx) (fun _ _ _ hx => cascade_products_ne hx)
      _ db p.pid hmem
  · rw [hclean]
    exact foldl_cascade_absent (fun d => d.orders) (fun o => o.productId)
      (fun _ _ _ hx => cascade_mem_orders hx) (fun _ _ _ hx => cascade_orders_ne hx)
      _ db p.pid hmem
  · rw [hclean]
    exact foldl_cascade_absent (fun d => d.productViews) (fun v => v.productId)
      (fun _ _ _ hx => cascade_mem_views hx) (fun _ _ _ hx => cascade_views_ne hx)
      _ db p.pid hmem
  · rw [hclean]
    exact foldl_cascade_absent (fun d => d.paymentSessions) (fun s => s.productId)
      (fun _ _ _ hx => cascade_mem_sessions hx) (fun _ _ _ hx => cascade_sessions_ne hx)
      _ db p.pid hmem
  · rw [hclean]
    exact foldl_cascade_absent (fun d => d.emailSentLogs) (fun e => e.productId)
      (fun _ _ _ hx => cascade_mem_emails hx) (fun _ _ _ hx => cascade_emails_ne hx)
      _ db p.pid hmem
  · rw [hclean]
    exact foldl_cascade_absent (fun d => d.linkGenerationDetails) (fun l => l.productId)
      (fun _ _ _ hx => cascade_mem_linkgen hx) (fun _ _ _ hx => cascade_linkgen_ne hx)
      _ db p.pid hmem
  · exact fun uid pid2 =>
      ⟨deleteProduct_transactions db uid pid2, deleteProduct_payoutHistory db uid pid2⟩

/- ===================== Concrete scenarios ===================== -/

/-- A live (unexpired) product used in fulfillment witnesses. -/
def pC1 : Product :=
  { pid := "p1", uid := "seller1", price := 100, coverPath := "covers/seller1/c1",
    filePath := "products/seller1/f1", createdAt := 0, expiresAt := some 604800000,
    sales := 0, revenue := 0 }

/-- A fresh payment session for `pC1`. -/
def sC1 : PaymentSession :=
  { sid := "sess1", email := "buyer@mail.co", productId := "p1",
    completed := false, orderId := none }

/-- A verified checkout-completed event for `pC1`/`sC1`. -/
def evC1 : StripeEvent :=
  { appSessionId := "sess1", productId := "p1", sellerUid := "seller1",
    productTitle := "Title", buyerEmail := "buyer@mail.co", stripeSessionId := "cs_1" }

/-- State before fulfillment of `evC1`. -/
def dbC1 : DB :=
  { products := [pC1], paymentSessions := [sC1], orders := [], users := [],
    transactions := [], payoutHistory := [], payoutErrors := [], productViews := [],
    accessLogs := [], accessAttempts := [], emailSentLogs := [],
    linkGenerationDetails := [], notices := [], networkCalls := [] }

/-- Witness for C1 at the concrete state `dbC1`: one delivery creates exactly
one order and a second delivery changes nothing. -/
theorem stripeWebhook_idempotent_fulfillment_witness :
    (stripeWebhook dbC1 evC1 10 (fun _ => true) "o1" "t1").orders.length =
        dbC1.orders.length + 1 ∧
    balanceOf (stripeWebhook dbC1 evC1 10 (fun _ => true) "o1" "t1") "seller1" =
        balanceOf dbC1 "seller1" + (computeSaleSplit 100).2.2 ∧
    stripeWebhook (stripeWebhook dbC1 evC1 10 (fun _ => true) "o1" "t1") evC1 20
        (fun _ => true) "o2" "t2" =
      stripeWebhook dbC1 evC1 10 (fun _ => true) "o1" "t1" := by
  have h := (stripeWebhook_idempotent_fulfillment dbC1 evC1 10 20 (fun _ => true)
    (fun _ => true) "o1" "t1" "o2" "t2").2.2 sC1 pC1 (by decide) (by rfl) (by rfl)
    (by rfl) (by rfl) (by rfl)
  exact ⟨h.1, h.2.2.1, h.2.2.2.2⟩

/-- An already-fulfilled, now-expired product with its surviving financial
records, used for the sweep scenarios: `oExp` is the order of the past sale,
`txExp` its ledger line, `prExp` a payout record of the seller. -/
def pExp : Product :=
  { pid := "p1", uid := "seller1", price := 100, coverPath := "covers/seller1/c1",
    filePath := "products/seller1/f1", createdAt := 0, expiresAt := some 604800000,
    sales := 1, revenue := 848 / 10 }

/-- The completed order of the past sale of `pExp`. -/
def oExp : Order :=
  { oid := "o1", productId := "p1", productTitle := "Title",
    buyerEmail := "buyer@mail.co", sellerUid := "seller1", amount := 100,
    stripeFee := 32 / 10, commission := 12, sellerAmount := 848 / 10,
    status := "completed", accessToken := "tok1", deviceInfo := some unknownDevice }

/-- The `sale` ledger line of the past sale of `pExp`. -/
def txExp : Txn :=
  { userId := "seller1", type := "sale", amount := 848 / 10, grossAmount := 100 }

/-- A payout record of the seller of `pExp`. -/
def prExp : PayoutRecord :=
  { userId := "seller1", amount := 9161 / 1000, grossAmount := 10,
    payoutFee := 839 / 1000, paypalEmail := "seller@mail.co", status := "completed" }

/-- State in which `pExp` has expired (any `now > 604800000` puts its
expiration in the past, and `createdAt = 0 < now - PRODUCT_TTL_MS`). -/
def dbExp : DB :=
  { products := [pExp],
    paymentSessions := [{ sid := "sess1", email := "buyer@mail.co", productId := "p1",
                          completed := true, orderId := some "o1" }],
    orders := [oExp],
    users := [{ uid := "seller1", email := some "seller@mail.co",
                paypalEmail := some "seller@pp.co", balance := 848 / 10 }],
    transactions := [txExp], payoutHistory := [prExp], payoutErrors := [],
    productViews := [{ productId := "p1", sellerUid := "seller1" }],
    accessLogs := [], accessAttempts := [],
    emailSentLogs := [{ productId := "p1", sellerUid := "seller1" }],
    linkGenerationDetails := [{ uid := "seller1", productId := "p1" }],
    notices := [], networkCalls := [] }

/-- Witness for C2 at `dbExp`: the sweep leaves the ledger and payout history
untouched while the product and its orders are removed. -/
theorem cleanup_financial_preservation_witness :
    (cleanupOldProducts dbExp 604800001).transactions = dbExp.transactions ∧
    (cleanupOldProducts dbExp 604800001).payoutHistory = dbExp.payoutHistory ∧
    (deleteProduct dbExp "seller1" "p1").1.transactions = dbExp.transactions := by
  have h := cleanup_financial_preservation dbExp 604800001 pExp
    (by simp [dbExp]) (by decide)
  exact ⟨h.1, h.2.1, (h.2.2.2.2.2.2.2.2 "seller1" "p1").1⟩

/-- C10 counterexample: the hourly sweep DOES delete the expired product's
associated order (`dbExp` holds one order for the expired product `pExp`; after
the sweep the `orders` collection is empty), contradicting the claim that no
deletion path deletes associated Order rows. -/
theorem productDeletion_spares_orders_cex :
    dbExp.orders = [oExp] ∧ (cleanupOldProducts dbExp 604800001).orders = [] := by
  exact ⟨rfl, rfl⟩

theorem deleteProduct_eq_of_none (db : DB) (uid pid2 : String)
    (hf : db.products.find? (fun q => q.pid == pid2) = none) :
    deleteProduct db uid pid2 = (db, false) := by
  unfold deleteProduct
  rw [hf]

theorem deleteProduct_eq_of_owner (db : DB) (uid pid2 : String) (q : Product)
    (hf : db.products.find? (fun x => x.pid == pid2) = some q)
    (hq : (q.uid == uid) = true) :
    deleteProduct db uid pid2 = (cascadeDeleteProduct db pid2, true) := by
  unfold deleteProduct
  rw [hf]
  simp [hq]

theorem deleteProduct_eq_of_notOwner (db : DB) (uid pid2 : String) (q : Product)
    (hf : db.products.find? (fun x => x.pid == pid2) = some q)
    (hq : (q.uid == uid) = false) :
    deleteProduct db uid pid2 = (db, false) := by
  unfold deleteProduct
  rw [hf]
  simp [hq]

/-- C10 (amended): deleting a product — by the expiration sweep or by explicit
owner deletion — never deletes Transaction or PayoutRecord rows; the product's
associated Orders, however, ARE deleted by both paths. -/
theorem productDeletion_preserves_financial
    (db : DB) (now : Int) (uid pid2 : String) (p : Product)
    (hp : p ∈ db.products) (hexp : p.createdAt < now - PRODUCT_TTL_MS) :
    (cleanupOldProducts db now).transactions = db.transactions ∧
    (cleanupOldProducts db now).payoutHistory = db.payoutHistory ∧
    (∀ o ∈ (cleanupOldProducts db now).orders, o.productId ≠ p.pid) ∧
    (deleteProduct db uid pid2).1.transactions = db.transactions ∧
    (deleteProduct db uid pid2).1.payoutHistory = db.payoutHistory ∧
    ((deleteProduct db uid pid2).2 = true →
      ∀ o ∈ (deleteProduct db uid pid2).1.orders, o.productId ≠ pid2) := by
  have hmem : p.pid ∈ (db.products.filter
      (fun q => q.createdAt < now - PRODUCT_TTL_MS)).map (fun q => q.pid) :=
    List.mem_map.mpr ⟨p, List.mem_filter.mpr ⟨hp, by simpa using hexp⟩, rfl⟩
  refine ⟨cleanup_transactions db now, cleanup_payoutHistory db now, ?_,
    deleteProduct_transactions db uid pid2, deleteProduct_payoutHistory db uid pid2, ?_⟩
  · exact foldl_cascade_absent (fun d => d.orders) (fun o => o.productId)
      (fun _ _ _ hx => cascade_mem_orders hx) (fun _ _ _ hx => cascade_orders_ne hx)
      _ db p.pid hmem
  · intro hran o ho
    cases hf : db.products.find? (fun q => q.pid == pid2) with
    | none =>
      rw [deleteProduct_eq_of_none db uid pid2 hf] at hran
      cases hran
    | some q =>
      by_cases hq : (q.uid == uid) = true
      · rw [deleteProduct_eq_of_owner db uid pid2 q hf hq] at ho
        exact cascade_orders_ne ho
      · rw [deleteProduct_eq_of_notOwner db uid pid2 q hf (by simpa using hq)] at hran
        cases hran

/-- Witness for the amended C10 at `dbExp`. -/
theorem productDeletion_preserves_financial_witness :
    (cleanupOldProducts dbExp 604800001).payoutHistory = dbExp.payoutHistory ∧
    (deleteProduct dbExp "seller1" "p1").1.payoutHistory = dbExp.payoutHistory := by
  have h := productDeletion_preserves_financial dbExp 604800001 "seller1" "p1" pExp
    (by simp [dbExp]) (by decide)
  exact ⟨h.2.1, h.2.2.2.2.1⟩

/-- C4 (amended): the three pre-purchase read paths — product details, buyer
e-mail collection, checkout-session creation — never answer 200 for a product
whose expiration time is in the past, independent of the sweep; the
purchased-content path `accessContent` performs no expiration check (see the
counterexample). -/
theorem expiration_gating_prepurchase
    (db : DB) (now : Int) (productId email sessionId : String) (p : Product)
    (hfind : db.products.find? (fun q => q.pid == productId) = some p)
    (hexp : productExpired p now = true) :
    getProductDetailsGate db now productId ≠ 200 ∧
    collectBuyerEmailGate db now email productId ≠ 200 ∧
    createCheckoutSessionGate db now productId sessionId ≠ 200 := by
  refine ⟨?_, ?_, ?_⟩
  · unfold getProductDetailsGate
    by_cases h0 : (productId == "") = true
    · simp [h0]
    · simp [h0, hfind, hexp]
  · unfold collectBuyerEmailGate
    by_cases h0 : (email == "" || productId == "") = true
    · simp [h0]
    · by_cases h1 : isEmail email = true
      · simp [h0, h1, hfind, hexp]
      · simp [h0, h1]
  · unfold createCheckoutSessionGate
    by_cases h0 : (productId == "" || sessionId == "") = true
    · simp [h0]
    · cases hsf : db.paymentSessions.find? (fun s => s.sid == sessionId) with
      | none => simp [h0, hsf]
      | some s =>
        by_cases hc : s.completed = true
        · simp [h0, hsf, hc]
        · simp [h0, hsf, hc, hfind, hexp]

/-- Witness for the amended C4 at `dbExp`, whose product `pExp` is expired at
time 604800001. -/
theorem expiration_gating_prepurchase_witness :
    getProductDetailsGate dbExp 604800001 "p1" ≠ 200 ∧
    collectBuyerEmailGate dbExp 604800001 "buyer@mail.co" "p1" ≠ 200 ∧
    createCheckoutSessionGate dbExp 604800001 "p1" "sess1" ≠ 200 :=
  expiration_gating_prepurchase dbExp 604800001 "p1" "buyer@mail.co" "sess1" pExp
    (by rfl) (by rfl)

/-- C4 counterexample: with the sweep not yet run, `accessContent` serves the
content of `pExp` although its expiration time (604800000) is in the past at
time 604800001 — the purchased-content read path has no expiration check, so
an expired product is still accessible to its buyer. -/
theorem expiration_gating_accessContent_cex :
    productExpired pExp 604800001 = true ∧
    (accessContent dbExp "tok1" unknownDevice).1 = AccessResult.ok := by
  exact ⟨rfl, rfl⟩

/- ===================== Payout lemmas ===================== -/

theorem net_pos_of_min (b : ℚ) (hb : MIN_PAYOUT ≤ b) : 0 < b - payoutFeeOf b := by
  unfold payoutFeeOf PAYPAL_FEE_FIXED PAYPAL_FEE_RATE
  unfold MIN_PAYOUT at hb
  linarith

theorem processPayout_eq_of_nonpos (db : DB) (uid : String) (amount : ℚ)
    (pe : String) (ok : Bool) (h : amount - payoutFeeOf amount ≤ 0) :
    processPayout db uid amount pe ok = (db, false) := by
  unfold processPayout
  simp [h]

theorem processPayout_eq_of_success (db : DB) (uid : String) (amount : ℚ) (pe : String)
    (h : 0 < amount - payoutFeeOf amount) :
    processPayout db uid amount pe true =
      ({ db with
          networkCalls := db.networkCalls ++ [(pe, amount - payoutFeeOf amount)]
          users := db.users.map (fun u =>
            if u.uid == uid then { u with balance := u.balance - amount } else u)
          payoutHistory := db.payoutHistory ++
            [{ userId := uid, amount := amount - payoutFeeOf amount,
               grossAmount := amount, payoutFee := payoutFeeOf amount,
               paypalEmail := pe, status := "completed" }]
          transactions := db.transactions ++
            [{ userId := uid, type := "payout",
               amount := amount - payoutFeeOf amount, grossAmount := amount }] }, true) := by
  unfold processPayout
  simp [not_le.mpr h]

theorem processPayout_eq_of_failure (db : DB) (uid : String) (amount : ℚ) (pe : String)
    (h : 0 < amount - payoutFeeOf amount) :
    processPayout db uid amount pe false =
      ({ db with
          networkCalls := db.networkCalls ++ [(pe, amount - payoutFeeOf amount)]
          payoutErrors := db.payoutErrors ++
            [{ userId := uid, amount := amount, paypalEmail := pe }] }, false) := by
  unfold processPayout
  simp [not_le.mpr h]

theorem find?_uid_nodup (l : List UserDoc) (u : UserDoc)
    (hnd : (l.map (fun x => x.uid)).Nodup) (hu : u ∈ l) :
    l.find? (fun x => x.uid == u.uid) = some u := by
  induction l with
  | nil => cases hu
  | cons a l ih =>
    rcases List.mem_cons.mp hu with h | h
    · subst h
      simp [List.find?_cons]
    · have hnd' : a.uid ∉ (l.map (fun x => x.uid)) ∧ (l.map (fun x => x.uid)).Nodup := by
        rw [List.map_cons] at hnd
        exact List.nodup_cons.mp hnd
      have hane : a.uid ≠ u.uid := by
        intro hcontra
        exact hnd'.1 (hcontra ▸ List.mem_map.mpr ⟨u, h, rfl⟩)
      rw [List.find?_cons]
      have : (a.uid == u.uid) = false := by simpa using hane
      rw [this]
      exact ih hnd'.2 h

theorem weeklyStep_eq_of_noPaypal (nk : String → Bool) (db : DB) (u : UserDoc)
    (hpe : u.paypalEmail = none) : weeklyStep nk db u = db := by
  unfold weeklyStep
  rw [hpe]

theorem weeklyStep_eq_of_badEmail (nk : String → Bool) (db : DB) (u : UserDoc) (pe : String)
    (hpe : u.paypalEmail = some pe) (he : isEmail pe = false) : weeklyStep nk db u = db := by
  unfold weeklyStep
  rw [hpe]
  simp [he]

theorem weeklyStep_eq_of_lowBalance (nk : String → Bool) (db : DB) (u : UserDoc) (pe : String)
    (hpe : u.paypalEmail = some pe) (hb : u.balance < MIN_PAYOUT) :
    weeklyStep nk db u = db := by
  unfold weeklyStep
  rw [hpe]
  by_cases he : isEmail pe = true
  · simp [he, hb]
  · simp [he]

theorem weeklyStep_eq_of_success (nk : String → Bool) (db : DB) (u : UserDoc) (pe : String)
    (hpe : u.paypalEmail = some pe) (he : isEmail pe = true)
    (hb : ¬ u.balance < MIN_PAYOUT) (hnk : nk u.uid = true) :
    weeklyStep nk db u =
      { db with
        networkCalls := db.networkCalls ++ [(pe, u.balance - payoutFeeOf u.balance)]
        users := db.users.map (fun x =>
          if x.uid == u.uid then { x with balance := x.balance - u.balance } else x)
        payoutHistory := db.payoutHistory ++
          [{ userId := u.uid, amount := u.balance - payoutFeeOf u.balance,
             grossAmount := u.balance, payoutFee := payoutFeeOf u.balance,
             paypalEmail := pe, status := "completed" }]
        transactions := db.transactions ++
          [{ userId := u.uid, type := "payout",
             amount := u.balance - payoutFeeOf u.balance, grossAmount := u.balance }]
        notices := db.notices ++ [{ kind := "payout_notification", email := pe }] } := by
  have hpos := net_pos_of_min u.balance (not_lt.mp hb)
  unfold weeklyStep
  rw [hpe]
  simp [he, hb, hnk, processPayout_eq_of_success db u.uid u.balance pe hpos]

theorem weeklyStep_eq_of_failure (nk : String → Bool) (db : DB) (u : UserDoc) (pe : String)
    (hpe : u.paypalEmail = some pe) (he : isEmail pe = true)
    (hb : ¬ u.balance < MIN_PAYOUT) (hnk : nk u.uid = false) :
    weeklyStep nk db u =
      { db with
        networkCalls := db.networkCalls ++ [(pe, u.balance - payoutFeeOf u.balance)]
        payoutErrors := db.payoutErrors ++
          [{ userId := u.uid, amount := u.balance, paypalEmail := pe },
           { userId := u.uid, amount := u.balance, paypalEmail := pe }] } := by
  have hpos := net_pos_of_min u.balance (not_lt.mp hb)
  unfold weeklyStep
  rw [hpe]
  simp [he, hb, hnk, processPayout_eq_of_failure db u.uid u.balance pe hpos]

/-- Every outcome of one weekly-payout iteration only rewrites the processed
user's balance and appends records tagged with that user's id. -/
theorem weeklyStep_shape (nk : String → Bool) (db : DB) (u : UserDoc) :
    ((weeklyStep nk db u).users = db.users ∨
      ∃ amt, (weeklyStep nk db u).users = db.users.map (fun x =>
        if x.uid == u.uid then { x with balance := x.balance - amt } else x)) ∧
    (∃ l, (weeklyStep nk db u).networkCalls = db.networkCalls ++ l) ∧
    (∃ l, (weeklyStep nk db u).payoutErrors = db.payoutErrors ++ l ∧
      ∀ e ∈ l, e.userId = u.uid) ∧
    (∃ l, (weeklyStep nk db u).transactions = db.transactions ++ l ∧
      ∀ t ∈ l, t.userId = u.uid ∧ t.type = "payout") ∧
    (∃ l, (weeklyStep nk db u).payoutHistory = db.payoutHistory ++ l ∧
      ∀ r ∈ l, r.userId = u.uid) ∧
    (∃ l, (weeklyStep nk db u).notices = db.notices ++ l) ∧
    (weeklyStep nk db u).products = db.products ∧
    (weeklyStep nk db u).orders = db.orders := by
  cases hpe : u.paypalEmail with
  | none =>
    rw [weeklyStep_eq_of_noPaypal nk db u hpe]
    exact ⟨Or.inl rfl, ⟨[], by simp⟩, ⟨[], by simp⟩, ⟨[], by simp⟩, ⟨[], by simp⟩,
      ⟨[], by simp⟩, rfl, rfl⟩
  | some pe =>
    by_cases he : isEmail pe = true
    · by_cases hb : u.balance < MIN_PAYOUT
      · rw [weeklyStep_eq_of_lowBalance nk db u pe hpe hb]
        exact ⟨Or.inl rfl, ⟨[], by simp⟩, ⟨[], by simp⟩, ⟨[], by simp⟩, ⟨[], by simp⟩,
          ⟨[], by simp⟩, rfl, rfl⟩
      · cases hnk : nk u.uid with
        | true =>
          rw [weeklyStep_eq_of_success nk db u pe hpe he hb hnk]
          refine ⟨Or.inr ⟨u.balance, rfl⟩, ⟨_, rfl⟩, ⟨[], by simp⟩, ⟨_, rfl, ?_⟩,
            ⟨_, rfl, ?_⟩, ⟨_, rfl⟩, rfl, rfl⟩
          · intro t ht
            rw [List.mem_singleton] at ht
            subst ht
            exact ⟨rfl, rfl⟩
          · intro r hr
            rw [List.mem_singleton] at hr
            subst hr
            rfl
        | false =>
          rw [weeklyStep_eq_of_failure nk db u pe hpe he hb hnk]
          refine ⟨Or.inl rfl, ⟨_, rfl⟩, ⟨_, rfl, ?_⟩, ⟨[], by simp⟩, ⟨[], by simp⟩,
            ⟨[], by simp⟩, rfl, rfl⟩
          intro e hegg
          rcases List.mem_cons.mp hegg with h | h
          · subst h; rfl
          · rw [List.mem_singleton] at h
            subst h; rfl
    · rw [weeklyStep_eq_of_badEmail nk db u pe hpe (by simpa using he)]
      exact ⟨Or.inl rfl, ⟨[], by simp⟩, ⟨[], by simp⟩, ⟨[], by simp⟩, ⟨[], by simp⟩,
        ⟨[], by simp⟩, rfl, rfl⟩

theorem weeklyStep_balance_frame (nk : String → Bool) (db : DB) (u : UserDoc)
    (uid' : String) (hne : u.uid ≠ uid') :
    balanceOf (weeklyStep nk db u) uid' = balanceOf db uid' := by
  rcases (weeklyStep_shape nk db u).1 with h | ⟨amt, h⟩
  · simp [balanceOf, h]
  · simp only [balanceOf, h]
    rw [find?_map_update_ne db.users (fun x => x.uid == u.uid) (fun x => x.uid == uid')
      (fun x => { x with balance := x.balance - amt })
      (fun x hx => by
        have hxx : x.uid = u.uid := by simpa using hx
        simp [hxx, hne])
      (fun x => rfl)]

theorem weeklyStep_hasUser (nk : String → Bool) (db : DB) (u : UserDoc) (uid' : String) :
    ((weeklyStep nk db u).users.find? (fun x => x.uid == uid')).isSome =
      (db.users.find? (fun x => x.uid == uid')).isSome := by
  rcases (weeklyStep_shape nk db u).1 with h | ⟨amt, h⟩
  · rw [h]
  · rw [h]
    by_cases hq : u.uid = uid'
    · subst hq
      rw [find?_map_update db.users (fun x => x.uid == u.uid)
        (fun x => { x with balance := x.balance - amt }) (fun x hx => hx)]
      cases db.users.find? (fun x => x.uid == u.uid) <;> rfl
    · rw [find?_map_update_ne db.users (fun x => x.uid == u.uid) (fun x => x.uid == uid')
        (fun x => { x with balance := x.balance - amt })
        (fun x hx => by
          have hxx : x.uid = u.uid := by simpa using hx
          simp [hxx, hq])
        (fun x => rfl)]

theorem weeklyStep_payoutTxns_frame (nk : String → Bool) (db : DB) (u : UserDoc)
    (uid' : String) (hne : u.uid ≠ uid') :
    payoutTxnsFor (weeklyStep nk db u) uid' = payoutTxnsFor db uid' := by
  rcases (weeklyStep_shape nk db u).2.2.2.1 with ⟨l, hl, hall⟩
  unfold payoutTxnsFor
  rw [hl, List.filter_append]
  have : l.filter (fun t => t.userId == uid' && t.type == "payout") = [] := by
    rw [List.filter_eq_nil_iff]
    intro t ht
    simp [(hall t ht).1, hne]
  rw [this, List.append_nil]

theorem weeklyStep_saleTxns_frame (nk : String → Bool) (db : DB) (u : UserDoc)
    (uid' : String) :
    saleTxnsFor (weeklyStep nk db u) uid' = saleTxnsFor db uid' := by
  rcases (weeklyStep_shape nk db u).2.2.2.1 with ⟨l, hl, hall⟩
  unfold saleTxnsFor
  rw [hl, List.filter_append]
  have : l.filter (fun t => t.userId == uid' && t.type == "sale") = [] := by
    rw [List.filter_eq_nil_iff]
    intro t ht
    simp [(hall t ht).2]
  rw [this, List.append_nil]

theorem weeklyStep_payoutRecords_frame (nk : String → Bool) (db : DB) (u : UserDoc)
    (uid' : String) (hne : u.uid ≠ uid') :
    payoutRecordsFor (weeklyStep nk db u) uid' = payoutRecordsFor db uid' := by
  rcases (weeklyStep_shape nk db u).2.2.2.2.1 with ⟨l, hl, hall⟩
  unfold payoutRecordsFor
  rw [hl, List.filter_append]
  have : l.filter (fun r => r.userId == uid') = [] := by
    rw [List.filter_eq_nil_iff]
    intro r hr
    simp [hall r hr, hne]
  rw [this, List.append_nil]

theorem weeklyStep_payoutErrors_frame (nk : String → Bool) (db : DB) (u : UserDoc)
    (uid' : String) (hne : u.uid ≠ uid') :
    payoutErrorsFor (weeklyStep nk db u) uid' = payoutErrorsFor db uid' := by
  rcases (weeklyStep_shape nk db u).2.2.1 with ⟨l, hl, hall⟩
  unfold payoutErrorsFor
  rw [hl, List.filter_append]
  have : l.filter (fun e => e.userId == uid') = [] := by
    rw [List.filter_eq_nil_iff]
    intro e he
    simp [hall e he, hne]
  rw [this, List.append_nil]

theorem weeklyStep_networkCalls_mono (nk : String → Bool) (db : DB) (u : UserDoc)
    (x : String × ℚ) (hx : x ∈ db.networkCalls) :
    x ∈ (weeklyStep nk db u).networkCalls := by
  rcases (weeklyStep_shape nk db u).2.1 with ⟨l, hl⟩
  rw [hl]
  exact List.mem_append_left l hx

theorem weeklyStep_payoutErrors_mono (nk : String → Bool) (db : DB) (u : UserDoc)
    (x : PayoutError) (hx : x ∈ db.payoutErrors) :
    x ∈ (weeklyStep nk db u).payoutErrors := by
  rcases (weeklyStep_shape nk db u).2.2.1 with ⟨l, hl, _⟩
  rw [hl]
  exact List.mem_append_left l hx

theorem weeklyStep_users_mem (nk : String → Bool) (db : DB) (w u : UserDoc)
    (hne : u.uid ≠ w.uid) (hu : u ∈ db.users) : u ∈ (weeklyStep nk db w).users := by
  rcases (weeklyStep_shape nk db w).1 with h | ⟨amt, h⟩
  · rw [h]; exact hu
  · rw [h]
    have hid : (fun x => if x.uid == w.uid then { x with balance := x.balance - amt } else x) u
        = u := by
      simp [hne]
    exact hid ▸ List.mem_map_of_mem _ hu

theorem foldl_weekly_frame (nk : String → Bool) (L : List UserDoc) (db : DB)
    (uid' : String) (h : ∀ u ∈ L, u.uid ≠ uid') :
    balanceOf (L.foldl (weeklyStep nk) db) uid' = balanceOf db uid' ∧
    payoutTxnsFor (L.foldl (weeklyStep nk) db) uid' = payoutTxnsFor db uid' ∧
    payoutRecordsFor (L.foldl (weeklyStep nk) db) uid' = payoutRecordsFor db uid' ∧
    payoutErrorsFor (L.foldl (weeklyStep nk) db) uid' = payoutErrorsFor db uid' := by
  induction L generalizing db with
  | nil => exact ⟨rfl, rfl, rfl, rfl⟩
  | cons a L ih =>
    have ha := h a (List.mem_cons_self a L)
    have ih' := ih (weeklyStep nk db a) (fun u hu => h u (List.mem_cons_of_mem a hu))
    exact ⟨ih'.1.trans (weeklyStep_balance_frame nk db a uid' ha),
      ih'.2.1.trans (weeklyStep_payoutTxns_frame nk db a uid' ha),
      ih'.2.2.1.trans (weeklyStep_payoutRecords_frame nk db a uid' ha),
      ih'.2.2.2.trans (weeklyStep_payoutErrors_frame nk db a uid' ha)⟩

theorem foldl_weekly_hasUser (nk : String → Bool) (L : List UserDoc) (db : DB)
    (uid' : String) :
    ((L.foldl (weeklyStep nk) db).users.find? (fun x => x.uid == uid')).isSome =
      (db.users.find? (fun x => x.uid == uid')).isSome := by
  induction L generalizing db with
  | nil => rfl
  | cons a L ih =>
    exact (ih (weeklyStep nk db a)).trans (weeklyStep_hasUser nk db a uid')

theorem foldl_weekly_networkCalls_mono (nk : String → Bool) (L : List UserDoc) (db : DB)
    (x : String × ℚ) (hx : x ∈ db.networkCalls) :
    x ∈ (L.foldl (weeklyStep nk) db).networkCalls := by
  induction L generalizing db with
  | nil => exact hx
  | cons a L ih =>
    exact ih (weeklyStep nk db a) (weeklyStep_networkCalls_mono nk db a x hx)

theorem foldl_weekly_payoutErrors_mono (nk : String → Bool) (L : List UserDoc) (db : DB)
    (x : PayoutError) (hx : x ∈ db.payoutErrors) :
    x ∈ (L.foldl (weeklyStep nk) db).payoutErrors := by
  induction L generalizing db with
  | nil => exact hx
  | cons a L ih =>
    exact ih (weeklyStep nk db a) (weeklyStep_payoutErrors_mono nk db a x hx)

theorem foldl_weekly_users_mem (nk : String → Bool) (L : List UserDoc) (db : DB)
    (u : UserDoc) (h : ∀ w ∈ L, u.uid ≠ w.uid) (hu : u ∈ db.users) :
    u ∈ (L.foldl (weeklyStep nk) db).users := by
  induction L generalizing db with
  | nil => exact hu
  | cons a L ih =>
    exact ih (weeklyStep nk db a) (fun w hw => h w (List.mem_cons_of_mem a hw))
      (weeklyStep_users_mem nk db a u (h a (List.mem_cons_self a L)) hu)

/-- Effect of a weekly run on a user whose network call succeeds, provided the
user appears once in the processed list and exists in the store. -/
theorem foldl_weekly_success_effect (nk : String → Bool) (L : List UserDoc) (db : DB)
    (u : UserDoc) (pe : String)
    (hnd : (L.map (fun x => x.uid)).Nodup) (hu : u ∈ L)
    (hpe : u.paypalEmail = some pe) (he : isEmail pe = true)
    (hb : ¬ u.balance < MIN_PAYOUT) (hnk : nk u.uid = true)
    (hpres : (db.users.find? (fun x => x.uid == u.uid)).isSome = true) :
    balanceOf (L.foldl (weeklyStep nk) db) u.uid = balanceOf db u.uid - u.balance ∧
    payoutTxnsFor (L.foldl (weeklyStep nk) db) u.uid = payoutTxnsFor db u.uid ++
      [{ userId := u.uid, type := "payout",
         amount := u.balance - payoutFeeOf u.balance, grossAmount := u.balance }] ∧
    payoutRecordsFor (L.foldl (weeklyStep nk) db) u.uid = payoutRecordsFor db u.uid ++
      [{ userId := u.uid, amount := u.balance - payoutFeeOf u.balance,
         grossAmount := u.balance, payoutFee := payoutFeeOf u.balance,
         paypalEmail := pe, status := "completed" }] ∧
    (pe, u.balance - payoutFeeOf u.balance) ∈ (L.foldl (weeklyStep nk) db).networkCalls := by
  induction L generalizing db with
  | nil => cases hu
  | cons a L ih =>
    have hnd' : a.uid ∉ (L.map (fun x => x.uid)) ∧ (L.map (fun x => x.uid)).Nodup := by
      rw [List.map_cons] at hnd
      exact List.nodup_cons.mp hnd
    rcases List.mem_cons.mp hu with hua | hua
    · subst hua
      have hL : ∀ w ∈ L, w.uid ≠ u.uid := by
        intro w hw hcontra
        exact hnd'.1 (hcontra ▸ List.mem_map.mpr ⟨w, hw, rfl⟩)
      have hframe := foldl_weekly_frame nk L (weeklyStep nk db u) u.uid hL
      have hstep := weeklyStep_eq_of_success nk db u pe hpe he hb hnk
      rcases Option.isSome_iff_exists.mp hpres with ⟨w, hw⟩
      refine ⟨?_, ?_, ?_, ?_⟩
      · rw [List.foldl_cons, hframe.1, hstep]
        simp only [balanceOf]
        rw [find?_map_update db.users (fun x => x.uid == u.uid)
          (fun x => { x with balance := x.balance - u.balance }) (fun x hx => hx), hw]
        rfl
      · rw [List.foldl_cons, hframe.2.1, hstep]
        unfold payoutTxnsFor
        rw [List.filter_append]
        simp
      · rw [List.foldl_cons, hframe.2.2.1, hstep]
        unfold payoutRecordsFor
        rw [List.filter_append]
        simp
      · rw [List.foldl_cons]
        apply foldl_weekly_networkCalls_mono
        rw [hstep]
        simp
    · have hane : u.uid ≠ a.uid := by
        intro hcontra
        exact hnd'.1 (hcontra ▸ List.mem_map.mpr ⟨u, hua, rfl⟩)
      have hpres' : ((weeklyStep nk db a).users.find? (fun x => x.uid == u.uid)).isSome
          = true := by
        rw [weeklyStep_hasUser nk db a u.uid]
        exact hpres
      have ih' := ih (weeklyStep nk db a) hnd'.2 hua hpres'
      rw [List.foldl_cons]
      refine ⟨?_, ?_, ?_, ih'.2.2.2⟩
      · rw [ih'.1, weeklyStep_balance_frame nk db a u.uid (Ne.symm hane)]
      · rw [ih'.2.1, weeklyStep_payoutTxns_frame nk db a u.uid (Ne.symm hane)]
      · rw [ih'.2.2.1, weeklyStep_payoutRecords_frame nk db a u.uid (Ne.symm hane)]

/-- Effect of a weekly run on a user whose network call fails: untouched
finances plus a logged payout error. -/
theorem foldl_weekly_failure_effect (nk : String → Bool) (L : List UserDoc) (db : DB)
    (u : UserDoc) (pe : String)
    (hnd : (L.map (fun x => x.uid)).Nodup) (hu : u ∈ L)
    (hpe : u.paypalEmail = some pe) (he : isEmail pe = true)
    (hb : ¬ u.balance < MIN_PAYOUT) (hnk : nk u.uid = false) :
    balanceOf (L.foldl (weeklyStep nk) db) u.uid = balanceOf db u.uid ∧
    payoutTxnsFor (L.foldl (weeklyStep nk) db) u.uid = payoutTxnsFor db u.uid ∧
    payoutRecordsFor (L.foldl (weeklyStep nk) db) u.uid = payoutRecordsFor db u.uid ∧
    ({ userId := u.uid, amount := u.balance, paypalEmail := pe } : PayoutError) ∈
      (L.foldl (weeklyStep nk) db).payoutErrors := by
  induction L generalizing db with
  | nil => cases hu
  | cons a L ih =>
    have hnd' : a.uid ∉ (L.map (fun x => x.uid)) ∧ (L.map (fun x => x.uid)).Nodup := by
      rw [List.map_cons] at hnd
      exact List.nodup_cons.mp hnd
    rcases List.mem_cons.mp hu with hua | hua
    · subst hua
      have hL : ∀ w ∈ L, w.uid ≠ u.uid := by
        intro w hw hcontra
        exact hnd'.1 (hcontra ▸ List.mem_map.mpr ⟨w, hw, rfl⟩)
      have hframe := foldl_weekly_frame nk L (weeklyStep nk db u) u.uid hL
      have hstep := weeklyStep_eq_of_failure nk db u pe hpe he hb hnk
      refine ⟨?_, ?_, ?_, ?_⟩
      · rw [List.foldl_cons, hframe.1, hstep]
        simp [balanceOf]
      · rw [List.foldl_cons, hframe.2.1, hstep]
        unfold payoutTxnsFor
        simp
      · rw [List.foldl_cons, hframe.2.2.1, hstep]
        unfold payoutRecordsFor
        simp
      · rw [List.foldl_cons]
        apply foldl_weekly_payoutErrors_mono
        rw [hstep]
        simp
    · have hane : u.uid ≠ a.uid := by
        intro hcontra
        exact hnd'.1 (hcontra ▸ List.mem_map.mpr ⟨u, hua, rfl⟩)
      have ih' := ih (weeklyStep nk db a) hnd'.2 hua
      rw [List.foldl_cons]
      refine ⟨?_, ?_, ?_, ih'.2.2.2⟩
      · rw [ih'.1, weeklyStep_balance_frame nk db a u.uid (Ne.symm hane)]
      · rw [ih'.2.1, weeklyStep_payoutTxns_frame nk db a u.uid (Ne.symm hane)]
      · rw [ih'.2.2.1, weeklyStep_payoutRecords_frame nk db a u.uid (Ne.symm hane)]

theorem lowNoticeStep_shape (db : DB) (u : UserDoc) :
    (∃ l, (lowNoticeStep db u).notices = db.notices ++ l) ∧
    (lowNoticeStep db u).users = db.users ∧
    (lowNoticeStep db u).transactions = db.transactions ∧
    (lowNoticeStep db u).payoutHistory = db.payoutHistory ∧
    (lowNoticeStep db u).payoutErrors = db.payoutErrors ∧
    (lowNoticeStep db u).networkCalls = db.networkCalls := by
  unfold lowNoticeStep
  cases he : u.email with
  | none => exact ⟨⟨[], by simp⟩, rfl, rfl, rfl, rfl, rfl⟩
  | some e =>
    by_cases hv : isEmail e = true
    · simp only [hv]
      exact ⟨⟨_, rfl⟩, rfl, rfl, rfl, rfl, rfl⟩
    · simp only [hv]
      exact ⟨⟨[], by simp⟩, rfl, rfl, rfl, rfl, rfl⟩

theorem foldl_lowNotice_frame (L : List UserDoc) (db : DB) :
    (L.foldl lowNoticeStep db).users = db.users ∧
    (L.foldl lowNoticeStep db).transactions = db.transactions ∧
    (L.foldl lowNoticeStep db).payoutHistory = db.payoutHistory ∧
    (L.foldl lowNoticeStep db).payoutErrors = db.payoutErrors ∧
    (L.foldl lowNoticeStep db).networkCalls = db.networkCalls := by
  induction L generalizing db with
  | nil => exact ⟨rfl, rfl, rfl, rfl, rfl⟩
  | cons a L ih =>
    have hs := lowNoticeStep_shape db a
    have ih' := ih (lowNoticeStep db a)
    exact ⟨ih'.1.trans hs.2.1, ih'.2.1.trans hs.2.2.1, ih'.2.2.1.trans hs.2.2.2.1,
      ih'.2.2.2.1.trans hs.2.2.2.2.1, ih'.2.2.2.2.trans hs.2.2.2.2.2⟩

theorem foldl_lowNotice_notices_mono (L : List UserDoc) (db : DB) (n : Notice)
    (hn : n ∈ db.notices) : n ∈ (L.foldl lowNoticeStep db).notices := by
  induction L generalizing db with
  | nil => exact hn
  | cons a L ih =>
    rcases (lowNoticeStep_shape db a).1 with ⟨l, hl⟩
    exact ih (lowNoticeStep db a) (hl ▸ List.mem_append_left l hn)

theorem foldl_lowNotice_adds (L : List UserDoc) (db : DB) (u : UserDoc) (e : String)
    (hu : u ∈ L) (he : u.email = some e) (hev : isEmail e = true) :
    ({ kind := "min_balance_not_reached", email := e } : Notice) ∈
      (L.foldl lowNoticeStep db).notices := by
  induction L generalizing db with
  | nil => cases hu
  | cons a L ih =>
    rcases List.mem_cons.mp hu with hua | hua
    · subst hua
      rw [List.foldl_cons]
      apply foldl_lowNotice_notices_mono
      unfold lowNoticeStep
      rw [he]
      simp [hev]
    · exact ih (lowNoticeStep db a) hua

theorem eq_of_mem_nodup_uid (l : List UserDoc) (u v : UserDoc)
    (hnd : (l.map (fun x => x.uid)).Nodup) (hu : u ∈ l) (hv : v ∈ l)
    (huid : u.uid = v.uid) : u = v := by
  have h1 : l.find? (fun x => x.uid == u.uid) = some u := find?_uid_nodup l u hnd hu
  have h2 : l.find? (fun x => x.uid == v.uid) = some v := find?_uid_nodup l v hnd hv
  rw [huid] at h1
  rw [h1] at h2
  exact Option.some.inj h2

theorem balanceOf_congr_users (d1 d2 : DB) (h : d1.users = d2.users) (uid : String) :
    balanceOf d1 uid = balanceOf d2 uid := by
  unfold balanceOf
  rw [h]

theorem payoutTxnsFor_congr (d1 d2 : DB) (h : d1.transactions = d2.transactions)
    (uid : String) : payoutTxnsFor d1 uid = payoutTxnsFor d2 uid := by
  unfold payoutTxnsFor
  rw [h]

theorem payoutRecordsFor_congr (d1 d2 : DB) (h : d1.payoutHistory = d2.payoutHistory)
    (uid : String) : payoutRecordsFor d1 uid = payoutRecordsFor d2 uid := by
  unfold payoutRecordsFor
  rw [h]

/-- C7: Payout batch isolation.  In a weekly run, a user whose PayPal call
fails is left undebited, gains no payout transaction and no payout-history
record, and a payout-error record carrying their id is logged; every OTHER
eligible user with a valid PayPal address whose call succeeds is still
processed: debited down to zero and given their payout transaction and payout
record.  (`hnd` says user-document ids are unique, as Firestore guarantees.) -/
theorem payout_batch_isolation
    (db : DB) (nk : String → Bool) (u : UserDoc) (pe : String)
    (hnd : (db.users.map (fun x => x.uid)).Nodup)
    (hu : u ∈ eligibleUsers db)
    (hpe : u.paypalEmail = some pe) (hpev : isEmail pe = true)
    (hnk : nk u.uid = false) :
    balanceOf (processWeeklyPayouts db nk) u.uid = balanceOf db u.uid ∧
    payoutTxnsFor (processWeeklyPayouts db nk) u.uid = payoutTxnsFor db u.uid ∧
    payoutRecordsFor (processWeeklyPayouts db nk) u.uid = payoutRecordsFor db u.uid ∧
    ({ userId := u.uid, amount := u.balance, paypalEmail := pe } : PayoutError) ∈
      (processWeeklyPayouts db nk).payoutErrors ∧
    (∀ (v : UserDoc) (pv : String), v ∈ eligibleUsers db → v.uid ≠ u.uid →
      v.paypalEmail = some pv → isEmail pv = true → nk v.uid = true →
      balanceOf (processWeeklyPayouts db nk) v.uid = 0 ∧
      payoutTxnsFor (processWeeklyPayouts db nk) v.uid = payoutTxnsFor db v.uid ++
        [{ userId := v.uid, type := "payout",
           amount := v.balance - payoutFeeOf v.balance, grossAmount := v.balance }] ∧
      payoutRecordsFor (processWeeklyPayouts db nk) v.uid = payoutRecordsFor db v.uid ++
        [{ userId := v.uid, amount := v.balance - payoutFeeOf v.balance,
           grossAmount := v.balance, payoutFee := payoutFeeOf v.balance,
           paypalEmail := pv, status := "completed" }]) := by
  have hndE : ((eligibleUsers db).map (fun x => x.uid)).Nodup :=
    List.Nodup.sublist (List.Sublist.map _ (List.filter_sublist _)) hnd
  have hub : ¬ u.balance < MIN_PAYOUT := by
    have hc := List.of_mem_filter hu
    simp only [Bool.and_eq_true, decide_eq_true_eq] at hc
    exact not_lt.mpr hc.1
  have hfin : processWeeklyPayouts db nk =
      (lowBalanceUsers ((eligibleUsers db).foldl (weeklyStep nk) db)).foldl lowNoticeStep
        ((eligibleUsers db).foldl (weeklyStep nk) db) := rfl
  have hlow := foldl_lowNotice_frame
    (lowBalanceUsers ((eligibleUsers db).foldl (weeklyStep nk) db))
    ((eligibleUsers db).foldl (weeklyStep nk) db)
  have heff := foldl_weekly_failure_effect nk (eligibleUsers db) db u pe hndE hu hpe hpev
    hub hnk
  refine ⟨?_, ?_, ?_, ?_, ?_⟩
  · rw [hfin, balanceOf_congr_users _ _ hlow.1]
    exact heff.1
  · rw [hfin, payoutTxnsFor_congr _ _ hlow.2.1]
    exact heff.2.1
  · rw [hfin, payoutRecordsFor_congr _ _ hlow.2.2.1]
    exact heff.2.2.1
  · rw [hfin, hlow.2.2.2.1]
    exact heff.2.2.2
  · intro v pv hv hvne hpv hpvv hnkv
    have hvmem : v ∈ db.users := List.mem_of_mem_filter hv
    have hvb : ¬ v.balance < MIN_PAYOUT := by
      have hc := List.of_mem_filter hv
      simp only [Bool.and_eq_true, decide_eq_true_eq] at hc
      exact not_lt.mpr hc.1
    have hpres : (db.users.find? (fun x => x.uid == v.uid)).isSome = true := by
      rw [find?_uid_nodup db.users v hnd hvmem]
      rfl
    have hbv : balanceOf db v.uid = v.balance := by
      unfold balanceOf
      rw [find?_uid_nodup db.users v hnd hvmem]
    have heffv := foldl_weekly_success_effect nk (eligibleUsers db) db v pv hndE hv hpv
      hpvv hvb hnkv hpres
    refine ⟨?_, ?_, ?_⟩
    · rw [hfin, balanceOf_congr_users _ _ hlow.1, heffv.1, hbv]
      ring
    · rw [hfin, payoutTxnsFor_congr _ _ hlow.2.1]
      exact heffv.2.1
    · rw [hfin, payoutRecordsFor_congr _ _ hlow.2.2.1]
      exact heffv.2.2.1

/-- C6 (amended): Payout threshold semantics.  In a weekly run, a user with a
valid PayPal destination and `0 < balance < 10` is not debited, pays no fee
(no payout transaction or record is produced for them), and receives the
below-minimum notice PROVIDED their account e-mail is present and valid — the
notice goes to `user.email`, not to the PayPal address, and is silently
skipped otherwise (src/index.js:918-924).  A user with `balance ≥ 10` and a
valid PayPal destination whose network call succeeds has the net amount
`balance - (0.49 + 0.0349·balance)` sent to the payout network (the wire
formats it to two decimals) and is debited exactly the gross balance. -/
theorem payout_threshold_semantics
    (db : DB) (nk : String → Bool) (u : UserDoc) (pe : String)
    (hnd : (db.users.map (fun x => x.uid)).Nodup)
    (hu : u ∈ db.users) (hpe : u.paypalEmail = some pe) (hpev : isEmail pe = true) :
    (∀ e : String, 0 < u.balance → u.balance < MIN_PAYOUT → u.email = some e →
      isEmail e = true →
      (({ kind := "min_balance_not_reached", email := e } : Notice) ∈
        (processWeeklyPayouts db nk).notices ∧
       balanceOf (processWeeklyPayouts db nk) u.uid = balanceOf db u.uid ∧
       payoutTxnsFor (processWeeklyPayouts db nk) u.uid = payoutTxnsFor db u.uid ∧
       payoutRecordsFor (processWeeklyPayouts db nk) u.uid = payoutRecordsFor db u.uid)) ∧
    (MIN_PAYOUT ≤ u.balance → nk u.uid = true →
      ((pe, u.balance - payoutFeeOf u.balance) ∈ (processWeeklyPayouts db nk).networkCalls ∧
       balanceOf (processWeeklyPayouts db nk) u.uid = balanceOf db u.uid - u.balance ∧
       balanceOf db u.uid = u.balance)) := by
  have hndE : ((eligibleUsers db).map (fun x => x.uid)).Nodup :=
    List.Nodup.sublist (List.Sublist.map _ (List.filter_sublist _)) hnd
  have hfin : processWeeklyPayouts db nk =
      (lowBalanceUsers ((eligibleUsers db).foldl (weeklyStep nk) db)).foldl lowNoticeStep
        ((eligibleUsers db).foldl (weeklyStep nk) db) := rfl
  have hlow := foldl_lowNotice_frame
    (lowBalanceUsers ((eligibleUsers db).foldl (weeklyStep nk) db))
    ((eligibleUsers db).foldl (weeklyStep nk) db)
  constructor
  · intro e h0 hlt he hev
    have hnotelig : ∀ w ∈ eligibleUsers db, w.uid ≠ u.uid := by
      intro w hw hcontra
      have hwmem : w ∈ db.users := List.mem_of_mem_filter hw
      have hweq : w = u := eq_of_mem_nodup_uid db.users w u hnd hwmem hu hcontra
      have hc := List.of_mem_filter hw
      simp only [Bool.and_eq_true, decide_eq_true_eq] at hc
      rw [hweq] at hc
      exact absurd hc.1 (not_le.mpr hlt)
    have hframe := foldl_weekly_frame nk (eligibleUsers db) db u.uid hnotelig
    have humem1 : u ∈ ((eligibleUsers db).foldl (weeklyStep nk) db).users :=
      foldl_weekly_users_mem nk (eligibleUsers db) db u
        (fun w hw => Ne.symm (hnotelig w hw)) hu
    have hulow : u ∈ lowBalanceUsers ((eligibleUsers db).foldl (weeklyStep nk) db) := by
      refine List.mem_filter.mpr ⟨humem1, ?_⟩
      simp [hpe, h0, hlt]
    refine ⟨?_, ?_, ?_, ?_⟩
    · rw [hfin]
      exact foldl_lowNotice_adds _ _ u e hulow he hev
    · rw [hfin, balanceOf_congr_users _ _ hlow.1]
      exact hframe.1
    · rw [hfin, payoutTxnsFor_congr _ _ hlow.2.1]
      exact hframe.2.1
    · rw [hfin, payoutRecordsFor_congr _ _ hlow.2.2.1]
      exact hframe.2.2.1
  · intro hmin hnk
    have huelig : u ∈ eligibleUsers db := by
      refine List.mem_filter.mpr ⟨hu, ?_⟩
      simp [hpe, hmin]
    have hub : ¬ u.balance < MIN_PAYOUT := not_lt.mpr hmin
    have hpres : (db.users.find? (fun x => x.uid == u.uid)).isSome = true := by
      rw [find?_uid_nodup db.users u hnd hu]
      rfl
    have hbu : balanceOf db u.uid = u.balance := by
      unfold balanceOf
      rw [find?_uid_nodup db.users u hnd hu]
    have heff := foldl_weekly_success_effect nk (eligibleUsers db) db u pe hndE huelig
      hpe hpev hub hnk hpres
    refine ⟨?_, ?_, hbu⟩
    · rw [hfin, hlow.2.2.2.2]
      exact heff.2.2.2
    · rw [hfin, balanceOf_congr_users _ _ hlow.1]
      exact heff.1

/- ===================== Concrete payout scenario ===================== -/

/-- Eligible user whose PayPal call will fail in the C7 scenario. -/
def uA : UserDoc :=
  { uid := "uA", email := some "a@mail.co", paypalEmail := some "a@pp.co", balance := 20 }

/-- Eligible user whose PayPal call succeeds. -/
def uB : UserDoc :=
  { uid := "uB", email := some "b@mail.co", paypalEmail := some "b@pp.co", balance := 30 }

/-- Below-threshold user with a valid PayPal destination but NO account
e-mail. -/
def uLow : UserDoc :=
  { uid := "uL", email := none, paypalEmail := some "l@pp.co", balance := 5 }

/-- Below-threshold user with a valid PayPal destination and a valid account
e-mail. -/
def uC : UserDoc :=
  { uid := "uC", email := some "c@mail.co", paypalEmail := some "c@pp.co", balance := 5 }

/-- Payout-scenario state. -/
def dbPay : DB :=
  { products := [], paymentSessions := [], orders := [], users := [uA, uB, uLow, uC],
    transactions := [], payoutHistory := [], payoutErrors := [], productViews := [],
    accessLogs := [], accessAttempts := [], emailSentLogs := [],
    linkGenerationDetails := [], notices := [], networkCalls := [] }

/-- Network that fails exactly for user `uA`. -/
def nkC7 : String → Bool := fun s => !(s == "uA")

/-- Witness for C7 at `dbPay`: `uA`'s failing call leaves `uA` undebited with
an error logged, while `uB` in the same run is still debited to zero. -/
theorem payout_batch_isolation_witness :
    balanceOf (processWeeklyPayouts dbPay nkC7) "uA" = balanceOf dbPay "uA" ∧
    ({ userId := "uA", amount := 20, paypalEmail := "a@pp.co" } : PayoutError) ∈
      (processWeeklyPayouts dbPay nkC7).payoutErrors ∧
    balanceOf (processWeeklyPayouts dbPay nkC7) "uB" = 0 := by
  have h := payout_batch_isolation dbPay nkC7 uA "a@pp.co" (by decide) (by decide) rfl
    (by decide) (by decide)
  exact ⟨h.1, h.2.2.2.1, (h.2.2.2.2 uB "b@pp.co" (by decide) (by decide) rfl (by decide)
    (by decide)).1⟩

/-- Witness for the amended C6 at `dbPay` with an all-success network: `uC`
(balance 5, valid account e-mail) gets the notice and keeps their balance;
`uB` (balance 30) has the net amount sent to the network and is debited the
gross 30. -/
theorem payout_threshold_semantics_witness :
    (({ kind := "min_balance_not_reached", email := "c@mail.co" } : Notice) ∈
      (processWeeklyPayouts dbPay (fun _ => true)).notices) ∧
    balanceOf (processWeeklyPayouts dbPay (fun _ => true)) "uC" =
      balanceOf dbPay "uC" ∧
    ((("b@pp.co" : String), (30 : ℚ) - payoutFeeOf 30) ∈
      (processWeeklyPayouts dbPay (fun _ => true)).networkCalls) ∧
    balanceOf (processWeeklyPayouts dbPay (fun _ => true)) "uB" =
      balanceOf dbPay "uB" - 30 := by
  have hc := payout_threshold_semantics dbPay (fun _ => true) uC "c@pp.co" (by decide)
    (by decide) rfl (by decide)
  have hb := payout_threshold_semantics dbPay (fun _ => true) uB "b@pp.co" (by decide)
    (by decide) rfl (by decide)
  have h1 := hc.1 "c@mail.co" (by decide) (by decide) rfl (by decide)
  have h2 := hb.2 (by decide) rfl
  exact ⟨h1.1, h1.2.1, h2.1, h2.2.1⟩

/-- State holding only the below-threshold user without an account e-mail. -/
def dbLow : DB :=
  { products := [], paymentSessions := [], orders := [], users := [uLow],
    transactions := [], payoutHistory := [], payoutErrors := [], productViews := [],
    accessLogs := [], accessAttempts := [], emailSentLogs := [],
    linkGenerationDetails := [], notices := [], networkCalls := [] }

/-- C6 counterexample: `uLow` has a valid PayPal destination and balance 5
(strictly between 0 and the 10 threshold), yet the weekly run over `dbLow`
sends NO e-mail at all — the below-minimum notice is keyed on the ACCOUNT
e-mail (`user.email`), which `uLow` lacks, so the claim that every such user
receives the notice fails. -/
theorem payout_threshold_notice_cex :
    uLow.balance = 5 ∧ uLow.paypalEmail = some "l@pp.co" ∧
    isEmail "l@pp.co" = true ∧ uLow ∈ dbLow.users ∧
    (processWeeklyPayouts dbLow (fun _ => true)).notices = [] := by
  refine ⟨rfl, rfl, by decide, by decide, by decide⟩

/- ===================== C5: non-positive net ===================== -/

/-- C5 (amended): non-positive-net failure is one-sided.  The payout split
(`processPayout`) fails before any write or network call whenever its net
amount `gross - (0.49 + 0.0349·gross)` is non-positive; the SALE split has no
such check — whenever the webhook's guards pass it creates the order and
appends the `sale` transaction even when `netSeller ≤ 0`.  (Products created
through `createProduct` have price ≥ $1, src/index.js:1303, for which
`netSeller > 0`.) -/
theorem nonpositive_net_handling
    (db : DB) (uid : String) (amount : ℚ) (pe : String) (ok : Bool)
    (db2 : DB) (ev : StripeEvent) (now : Int) (fe : String → Bool) (oid tok : String)
    (s : PaymentSession) (product : Product)
    (hneg : amount - payoutFeeOf amount ≤ 0)
    (hm : (ev.appSessionId == "" || ev.productId == "" || ev.sellerUid == "" ||
        ev.buyerEmail == "") = false)
    (hs : db2.paymentSessions.find? (fun x => x.sid == ev.appSessionId) = some s)
    (hc : s.completed = false)
    (hp : db2.products.find? (fun p => p.pid == ev.productId) = some product)
    (hexp : productExpired product now = false)
    (hfile : fe product.filePath = true)
    (hnp : (computeSaleSplit product.price).2.2 ≤ 0) :
    processPayout db uid amount pe ok = (db, false) ∧
    (stripeWebhook db2 ev now fe oid tok).orders.length = db2.orders.length + 1 ∧
    saleTxnsFor (stripeWebhook db2 ev now fe oid tok) ev.sellerUid =
      saleTxnsFor db2 ev.sellerUid ++
        [{ userId := ev.sellerUid, type := "sale",
           amount := (computeSaleSplit product.price).2.2,
           grossAmount := product.price }] ∧
    (∀ price : ℚ, 1 ≤ price → 0 < (computeSaleSplit price).2.2) := by
  refine ⟨processPayout_eq_of_nonpos db uid amount pe ok hneg, ?_, ?_, ?_⟩
  · rw [stripeWebhook_fulfill db2 ev now fe oid tok s product hm hs hc hp hexp hfile]
    simp
  · rw [stripeWebhook_fulfill db2 ev now fe oid tok s product hm hs hc hp hexp hfile]
    unfold saleTxnsFor
    rw [List.filter_append]
    simp
  · intro price hprice
    have h : (computeSaleSplit price).2.2 =
        price - (price * STRIPE_FEE_RATE + STRIPE_FEE_FIXED) - price * PLATFORM_RATE := rfl
    rw [h]
    unfold STRIPE_FEE_RATE STRIPE_FEE_FIXED PLATFORM_RATE
    nlinarith [hprice]

/-- Cheap product whose seller net is negative. -/
def pC5 : Product :=
  { pid := "p5", uid := "seller5", price := 1 / 4, coverPath := "covers/5",
    filePath := "products/5", createdAt := 0, expiresAt := some 604800000,
    sales := 0, revenue := 0 }

/-- Fresh payment session for `pC5`. -/
def sC5 : PaymentSession :=
  { sid := "sess5", email := "b5@x.co", productId := "p5",
    completed := false, orderId := none }

/-- Checkout-completed event for `pC5`/`sC5`. -/
def evC5 : StripeEvent :=
  { appSessionId := "sess5", productId := "p5", sellerUid := "seller5",
    productTitle := "T5", buyerEmail := "b5@x.co", stripeSessionId := "cs_5" }

/-- State before fulfillment of `evC5`. -/
def dbC5 : DB :=
  { products := [pC5], paymentSessions := [sC5], orders := [], users := [],
    transactions := [], payoutHistory := [], payoutErrors := [], productViews := [],
    accessLogs := [], accessAttempts := [], emailSentLogs := [],
    linkGenerationDetails := [], notices := [], networkCalls := [] }

/-- C5 counterexample: for the $0.25 product `pC5` the computed seller net is
negative, yet the webhook still creates the order and the `sale` transaction —
no `InvalidAmount` failure exists on the sale path. -/
theorem nonpositive_net_sale_cex :
    (computeSaleSplit pC5.price).2.2 < 0 ∧
    dbC5.orders = [] ∧ dbC5.transactions = [] ∧
    (stripeWebhook dbC5 evC5 10 (fun _ => true) "o5" "t5").orders.length = 1 ∧
    (stripeWebhook dbC5 evC5 10 (fun _ => true) "o5" "t5").transactions.length = 1 := by
  refine ⟨?_, rfl, rfl, ?_, ?_⟩
  · norm_num [computeSaleSplit, pC5, STRIPE_FEE_RATE, STRIPE_FEE_FIXED, PLATFORM_RATE]
  · rw [stripeWebhook_fulfill dbC5 evC5 10 (fun _ => true) "o5" "t5" sC5 pC5 (by decide)
      rfl rfl rfl rfl rfl]
    rfl
  · rw [stripeWebhook_fulfill dbC5 evC5 10 (fun _ => true) "o5" "t5" sC5 pC5 (by decide)
      rfl rfl rfl rfl rfl]
    rfl

/-- Witness for the amended C5: the payout split refuses a $0.50 payout (net
would be negative) while the webhook creates an order for `pC5` anyway, and a
$1 price still yields a positive seller net. -/
theorem nonpositive_net_handling_witness :
    processPayout dbC5 "u1" (1 / 2) "x@y.co" true = (dbC5, false) ∧
    (stripeWebhook dbC5 evC5 10 (fun _ => true) "o5" "t5").orders.length =
      dbC5.orders.length + 1 ∧
    0 < (computeSaleSplit 1).2.2 := by
  have h := nonpositive_net_handling dbC5 "u1" (1 / 2) "x@y.co" true dbC5 evC5 10
    (fun _ => true) "o5" "t5" sC5 pC5
    (by norm_num [payoutFeeOf, PAYPAL_FEE_FIXED, PAYPAL_FEE_RATE]) (by decide) rfl rfl rfl
    rfl rfl
    (by norm_num [computeSaleSplit, pC5, STRIPE_FEE_RATE, STRIPE_FEE_FIXED, PLATFORM_RATE])
  exact ⟨h.1, h.2.1, h.2.2.2 1 le_rfl⟩

/- ===================== C9: device binding ===================== -/

/-- Orders only ever enter the store through the webhook with the
creation-time device info `unknownDevice` (src/index.js:2176-2182): any order
of the post-state is either a pre-existing one or carries `unknownDevice`. -/
theorem stripeWebhook_device_at_creation (db : DB) (ev : StripeEvent) (now : Int)
    (fe : String → Bool) (oid tok : String) :
    ∀ o ∈ (stripeWebhook db ev now fe oid tok).orders,
      o ∈ db.orders ∨ o.deviceInfo = some unknownDevice := by
  intro o ho
  unfold stripeWebhook at ho
  split at ho
  · exact Or.inl ho
  · split at ho
    · exact Or.inl ho
    · split at ho
      · exact Or.inl ho
      · split at ho
        · exact Or.inl ho
        · split at ho
          · exact Or.inl ho
          · split at ho
            · exact Or.inl ho
            · rcases List.mem_append.mp ho with h | h
              · exact Or.inl h
              · right
                rw [List.mem_singleton] at h
                subst h
                rfl

/-- C9 (amended): the device fingerprint is bound at ORDER CREATION, not at
first access.  `accessContent` refuses and logs any access whose browser/os
strings differ from the fingerprint STORED on the order, permits any access
matching it (when the product document still exists), and never changes the
stored fingerprint; webhook-created orders carry the fixed `Unknown`
fingerprint since no user agent is available at fulfillment. -/
theorem device_binding_semantics
    (db : DB) (token : String) (dev : DeviceInfo) (order : Order)
    (hfind : db.orders.find? (fun o => o.accessToken == token) = some order)
    (htok : (token == "") = false) :
    ((dev.browser == storedBrowser order && dev.os == storedOs order) = false →
      ((accessContent db token dev).1 = AccessResult.forbidden ∧
       (accessContent db token dev).2.accessAttempts =
         db.accessAttempts ++ [{ orderId := order.oid, allowed := false }] ∧
       (accessContent db token dev).2.orders = db.orders)) ∧
    (∀ product : Product,
      (dev.browser == storedBrowser order && dev.os == storedOs order) = true →
      db.products.find? (fun p => p.pid == order.productId) = some product →
      (accessContent db token dev).1 = AccessResult.ok) ∧
    ((accessContent db token dev).2.orders.map (fun o => o.deviceInfo) =
      db.orders.map (fun o => o.deviceInfo)) ∧
    (∀ (dbw : DB) (ev : StripeEvent) (now : Int) (fe : String → Bool) (oid tok : String),
      ∀ o ∈ (stripeWebhook dbw ev now fe oid tok).orders,
        o ∈ dbw.orders ∨ o.deviceInfo = some unknownDevice) := by
  refine ⟨?_, ?_, ?_, fun dbw ev now fe oid tok =>
    stripeWebhook_device_at_creation dbw ev now fe oid tok⟩
  · intro hmis
    unfold accessContent
    simp [htok, hfind, hmis]
  · intro product hmatch hprod
    unfold accessContent
    simp [htok, hfind, hmatch, hprod]
  · unfold accessContent
    by_cases hmis : (dev.browser == storedBrowser order && dev.os == storedOs order) = true
    · simp only [htok, hfind, hmis]
      cases hprod : db.products.find? (fun p => p.pid == order.productId) with
      | none => simp [htok, hfind, hmis, hprod]
      | some product =>
        simp only [htok, hfind, hmis, hprod]
        by_cases hst : (order.status == "completed") = true
        · simp only [hst]
          simp [List.map_map]
          intro o ho
          by_cases hoid : o.oid = order.oid
          · simp [hoid]
          · simp [hoid]
        · simp [hst]
    · simp [htok, hfind, hmis]

/-- A real browser fingerprint as `extractDeviceInfo` would produce it. -/
def devChrome : DeviceInfo :=
  { browser := "Chrome 120", os := "Windows 10", device := "Desktop", userAgent := "UA" }

/-- C9 counterexample: the FIRST access (no access logs exist in `dbExp`) to
the webhook-created order `oExp` from a real browser is REFUSED and logged as
a failed attempt, and the stored fingerprint stays `Unknown` — the first
access binds nothing, contradicting the claimed first-access binding. -/
theorem device_binding_cex :
    dbExp.accessLogs = [] ∧
    oExp.deviceInfo = some unknownDevice ∧
    (accessContent dbExp "tok1" devChrome).1 = AccessResult.forbidden ∧
    (accessContent dbExp "tok1" devChrome).2.accessAttempts =
      [{ orderId := "o1", allowed := false }] ∧
    (accessContent dbExp "tok1" devChrome).2.orders.map (fun o => o.deviceInfo) =
      [some unknownDevice] := by
  exact ⟨rfl, rfl, rfl, rfl, rfl⟩

/-- Witness for the amended C9 at `dbExp`: a mismatching fingerprint is
refused with the stored fingerprint untouched; the matching (stored)
fingerprint is served. -/
theorem device_binding_semantics_witness :
    (accessContent dbExp "tok1" devChrome).1 = AccessResult.forbidden ∧
    (accessContent dbExp "tok1" unknownDevice).1 = AccessResult.ok ∧
    (accessContent dbExp "tok1" devChrome).2.orders.map (fun o => o.deviceInfo) =
      dbExp.orders.map (fun o => o.deviceInfo) := by
  have h1 := device_binding_semantics dbExp "tok1" devChrome oExp rfl (by decide)
  have h2 := device_binding_semantics dbExp "tok1" unknownDevice oExp rfl (by decide)
  exact ⟨(h1.1 (by decide)).1, h2.2.1 pExp (by decide) rfl, h1.2.2.1⟩

/- ===================== C3: ledger-balance invariant ===================== -/

theorem find?_setMergeBalance_ne (users : List UserDoc) (uid uid' : String) (d : ℚ)
    (hne : uid ≠ uid') :
    (setMergeBalance users uid d).find? (fun u => u.uid == uid')
      = users.find? (fun u => u.uid == uid') := by
  unfold setMergeBalance
  by_cases h : users.any (fun u => u.uid == uid) = true
  · rw [if_pos h]
    exact find?_map_update_ne users (fun u => u.uid == uid) (fun u => u.uid == uid')
      (fun u => { u with balance := u.balance + d })
      (fun x hx => by
        have hxx : x.uid = uid := by simpa using hx
        simp [hxx, hne])
      (fun x => rfl)
  · rw [if_neg h, List.find?_append]
    cases hf : users.find? (fun u => u.uid == uid') with
    | some v => rfl
    | none => simp [hne]

theorem stripeWebhook_product_absent_noop (db : DB) (ev : StripeEvent) (now : Int)
    (fe : String → Bool) (oid tok : String) (s : PaymentSession)
    (hm : (ev.appSessionId == "" || ev.productId == "" || ev.sellerUid == "" ||
        ev.buyerEmail == "") = false)
    (hs : db.paymentSessions.find? (fun x => x.sid == ev.appSessionId) = some s)
    (hc : s.completed = false)
    (hp : db.products.find? (fun p => p.pid == ev.productId) = none) :
    stripeWebhook db ev now fe oid tok = db := by
  unfold stripeWebhook
  simp [hm, hs, hc, hp]

theorem stripeWebhook_expired_noop (db : DB) (ev : StripeEvent) (now : Int)
    (fe : String → Bool) (oid tok : String) (s : PaymentSession) (product : Product)
    (hm : (ev.appSessionId == "" || ev.productId == "" || ev.sellerUid == "" ||
        ev.buyerEmail == "") = false)
    (hs : db.paymentSessions.find? (fun x => x.sid == ev.appSessionId) = some s)
    (hc : s.completed = false)
    (hp : db.products.find? (fun p => p.pid == ev.productId) = some product)
    (hexp : productExpired product now = true) :
    stripeWebhook db ev now fe oid tok = db := by
  unfold stripeWebhook
  simp [hm, hs, hc, hp, hexp]

theorem stripeWebhook_nofile_noop (db : DB) (ev : StripeEvent) (now : Int)
    (fe : String → Bool) (oid tok : String) (s : PaymentSession) (product : Product)
    (hm : (ev.appSessionId == "" || ev.productId == "" || ev.sellerUid == "" ||
        ev.buyerEmail == "") = false)
    (hs : db.paymentSessions.find? (fun x => x.sid == ev.appSessionId) = some s)
    (hc : s.completed = false)
    (hp : db.products.find? (fun p => p.pid == ev.productId) = some product)
    (hexp : productExpired product now = false)
    (hfile : fe product.filePath = false) :
    stripeWebhook db ev now fe oid tok = db := by
  unfold stripeWebhook
  simp [hm, hs, hc, hp, hexp, hfile]

/-- The webhook either changes nothing or applies the full fulfillment write
set for the product it found. -/
theorem stripeWebhook_shape (db : DB) (ev : StripeEvent) (now : Int)
    (fe : String → Bool) (oid tok : String) :
    stripeWebhook db ev now fe oid tok = db ∨
    ∃ product : Product,
      (stripeWebhook db ev now fe oid tok).users =
        setMergeBalance db.users ev.sellerUid (computeSaleSplit product.price).2.2 ∧
      (stripeWebhook db ev now fe oid tok).transactions = db.transactions ++
        [{ userId := ev.sellerUid, type := "sale",
           amount := (computeSaleSplit product.price).2.2,
           grossAmount := product.price }] := by
  by_cases hm : (ev.appSessionId == "" || ev.productId == "" || ev.sellerUid == "" ||
      ev.buyerEmail == "") = true
  · exact Or.inl (stripeWebhook_metadata_noop db ev now fe oid tok hm)
  · have hm' : (ev.appSessionId == "" || ev.productId == "" || ev.sellerUid == "" ||
        ev.buyerEmail == "") = false := by simpa using hm
    cases hs : db.paymentSessions.find? (fun x => x.sid == ev.appSessionId) with
    | none => exact Or.inl (stripeWebhook_session_absent_noop db ev now fe oid tok hs)
    | some s =>
      by_cases hc : s.completed = true
      · exact Or.inl (stripeWebhook_completed_noop db ev now fe oid tok s hs hc)
      · have hc' : s.completed = false := by simpa using hc
        cases hp : db.products.find? (fun p => p.pid == ev.productId) with
        | none =>
          exact Or.inl (stripeWebhook_product_absent_noop db ev now fe oid tok s hm' hs hc' hp)
        | some product =>
          by_cases hexp : productExpired product now = true
          · exact Or.inl (stripeWebhook_expired_noop db ev now fe oid tok s product hm' hs
              hc' hp hexp)
          · have hexp' : productExpired product now = false := by simpa using hexp
            by_cases hfile : fe product.filePath = true
            · right
              refine ⟨product, ?_, ?_⟩ <;>
                rw [stripeWebhook_fulfill db ev now fe oid tok s product hm' hs hc' hp
                  hexp' hfile]
            · exact Or.inl (stripeWebhook_nofile_noop db ev now fe oid tok s product hm' hs
                hc' hp hexp' (by simpa using hfile))

theorem LedgerInv_congr (d1 d2 : DB) (hu : d1.users = d2.users)
    (ht : d1.transactions = d2.transactions) (h : LedgerInv d2) : LedgerInv d1 := by
  intro uid
  have hbase := h uid
  unfold saleAmountSum payoutGrossSum saleTxnsFor payoutTxnsFor balanceOf at hbase ⊢
  rw [hu, ht]
  exact hbase

/-- One fulfilled payment event preserves the gross-ledger invariant. -/
theorem stripeWebhook_ledger (db : DB) (ev : StripeEvent) (now : Int)
    (fe : String → Bool) (oid tok : String) (h : LedgerInv db) :
    LedgerInv (stripeWebhook db ev now fe oid tok) := by
  rcases stripeWebhook_shape db ev now fe oid tok with heq | ⟨product, husers, htx⟩
  · rw [heq]
    exact h
  · intro uid
    have hbase := h uid
    by_cases huid : uid = ev.sellerUid
    · subst huid
      have hsale : saleAmountSum (stripeWebhook db ev now fe oid tok) ev.sellerUid =
          saleAmountSum db ev.sellerUid + (computeSaleSplit product.price).2.2 := by
        unfold saleAmountSum saleTxnsFor
        rw [htx, List.filter_append]
        simp
      have hpay : payoutGrossSum (stripeWebhook db ev now fe oid tok) ev.sellerUid =
          payoutGrossSum db ev.sellerUid := by
        unfold payoutGrossSum payoutTxnsFor
        rw [htx, List.filter_append]
        simp
      have hbal : balanceOf (stripeWebhook db ev now fe oid tok) ev.sellerUid =
          balanceOf db ev.sellerUid + (computeSaleSplit product.price).2.2 := by
        unfold balanceOf
        rw [husers, find?_setMergeBalance]
        cases hf : db.users.find? (fun u => u.uid == ev.sellerUid) with
        | none => simp
        | some w => simp
      rw [hsale, hpay, hbal]
      linarith
    · have hne : ev.sellerUid ≠ uid := fun hcontra => huid hcontra.symm
      have hsale : saleAmountSum (stripeWebhook db ev now fe oid tok) uid =
          saleAmountSum db uid := by
        unfold saleAmountSum saleTxnsFor
        rw [htx, List.filter_append]
        simp [hne]
      have hpay : payoutGrossSum (stripeWebhook db ev now fe oid tok) uid =
          payoutGrossSum db uid := by
        unfold payoutGrossSum payoutTxnsFor
        rw [htx, List.filter_append]
        simp
      have hbal : balanceOf (stripeWebhook db ev now fe oid tok) uid =
          balanceOf db uid := by
        unfold balanceOf
        rw [husers, find?_setMergeBalance_ne db.users ev.sellerUid uid _ hne]
      rw [hsale, hpay, hbal]
      exact hbase

/-- One weekly-payout iteration preserves the gross-ledger invariant, provided
the user being processed exists in the store. -/
theorem weeklyStep_ledger (nk : String → Bool) (db : DB) (u : UserDoc)
    (hpres : (db.users.find? (fun x => x.uid == u.uid)).isSome = true)
    (h : LedgerInv db) : LedgerInv (weeklyStep nk db u) := by
  cases hpe : u.paypalEmail with
  | none =>
    rw [weeklyStep_eq_of_noPaypal nk db u hpe]
    exact h
  | some pe =>
    by_cases he : isEmail pe = true
    · by_cases hb : u.balance < MIN_PAYOUT
      · rw [weeklyStep_eq_of_lowBalance nk db u pe hpe hb]
        exact h
      · cases hnk : nk u.uid with
        | false =>
          have hstep := weeklyStep_eq_of_failure nk db u pe hpe he hb hnk
          refine LedgerInv_congr _ db ?_ ?_ h <;> rw [hstep]
        | true =>
          have hstep := weeklyStep_eq_of_success nk db u pe hpe he hb hnk
          intro uid
          have hbase := h uid
          have hsalef : saleTxnsFor (weeklyStep nk db u) uid = saleTxnsFor db uid :=
            weeklyStep_saleTxns_frame nk db u uid
          have hsale : saleAmountSum (weeklyStep nk db u) uid = saleAmountSum db uid := by
            unfold saleAmountSum
            rw [hsalef]
          by_cases huid : uid = u.uid
          · subst huid
            rcases Option.isSome_iff_exists.mp hpres with ⟨w, hw⟩
            have hpay : payoutGrossSum (weeklyStep nk db u) u.uid =
                payoutGrossSum db u.uid + u.balance := by
              unfold payoutGrossSum payoutTxnsFor
              rw [hstep]
              simp only []
              rw [List.filter_append]
              simp
            have hbal0 : balanceOf db u.uid = w.balance := by
              unfold balanceOf
              rw [hw]
            have hbal : balanceOf (weeklyStep nk db u) u.uid = w.balance - u.balance := by
              unfold balanceOf
              rw [hstep]
              simp only []
              rw [find?_map_update db.users (fun x => x.uid == u.uid)
                (fun x => { x with balance := x.balance - u.balance }) (fun x hx => hx), hw]
              rfl
            rw [hsale, hpay, hbal, ← hbal0]
            linarith
          · have hne : u.uid ≠ uid := fun hcontra => huid hcontra.symm
            have hpay : payoutGrossSum (weeklyStep nk db u) uid = payoutGrossSum db uid := by
              unfold payoutGrossSum
              rw [weeklyStep_payoutTxns_frame nk db u uid hne]
            have hbal : balanceOf (weeklyStep nk db u) uid = balanceOf db uid :=
              weeklyStep_balance_frame nk db u uid hne
            rw [hsale, hpay, hbal]
            exact hbase
    · rw [weeklyStep_eq_of_badEmail nk db u pe hpe (by simpa using he)]
      exact h

theorem foldl_weekly_ledger (nk : String → Bool) (L : List UserDoc) (db : DB)
    (hpresL : ∀ u ∈ L, (db.users.find? (fun x => x.uid == u.uid)).isSome = true)
    (h : LedgerInv db) : LedgerInv (L.foldl (weeklyStep nk) db) := by
  induction L generalizing db with
  | nil => exact h
  | cons a L ih =>
    apply ih (weeklyStep nk db a)
    · intro u hu
      rw [weeklyStep_hasUser]
      exact hpresL u (List.mem_cons_of_mem a hu)
    · exact weeklyStep_ledger nk db a (hpresL a (List.mem_cons_self a L)) h

/-- A whole weekly payout run preserves the gross-ledger invariant. -/
theorem processWeeklyPayouts_ledger (db : DB) (nk : String → Bool)
    (h : LedgerInv db) : LedgerInv (processWeeklyPayouts db nk) := by
  have hfin : processWeeklyPayouts db nk =
      (lowBalanceUsers ((eligibleUsers db).foldl (weeklyStep nk) db)).foldl lowNoticeStep
        ((eligibleUsers db).foldl (weeklyStep nk) db) := rfl
  rw [hfin]
  have hlow := foldl_lowNotice_frame
    (lowBalanceUsers ((eligibleUsers db).foldl (weeklyStep nk) db))
    ((eligibleUsers db).foldl (weeklyStep nk) db)
  refine LedgerInv_congr _ _ hlow.1 hlow.2.1 ?_
  apply foldl_weekly_ledger
  · intro u hu
    have humem : u ∈ db.users := List.mem_of_mem_filter hu
    rw [List.find?_isSome]
    exact ⟨u, humem, by simp⟩
  · exact h

/-- C3 (amended): the ledger-balance invariant the code actually maintains
uses the GROSS payout amounts: for every user, after any sequence of
fulfilled payment events and weekly payout runs starting from a state where
it holds, `sum(sale amounts) - sum(payout grossAmounts) = stored balance`.
(The claim's version with the payout `amount` field — the NET amount — fails;
see the counterexample.) -/
theorem ledger_invariant_gross (db : DB) (ops : List SettleOp) (h : LedgerInv db) :
    LedgerInv (ops.foldl applySettleOp db) := by
  induction ops generalizing db with
  | nil => exact h
  | cons op ops ih =>
    apply ih
    cases op with
    | sale ev now fe oid tok => exact stripeWebhook_ledger db ev now fe oid tok h
    | payoutRun nk => exact processWeeklyPayouts_ledger db nk h

/-- Seller account with zero balance and a valid PayPal destination. -/
def userS : UserDoc :=
  { uid := "seller1", email := some "seller@mail.co", paypalEmail := some "s@pp.co",
    balance := 0 }

/-- Fresh state for the ledger scenario: one live product, one open payment
session, one seller with zero balance. -/
def dbC3 : DB :=
  { products := [pC1], paymentSessions := [sC1], orders := [], users := [userS],
    transactions := [], payoutHistory := [], payoutErrors := [], productViews := [],
    accessLogs := [], accessAttempts := [], emailSentLogs := [],
    linkGenerationDetails := [], notices := [], networkCalls := [] }

/-- State after one fulfilled sale of `pC1` followed by one weekly payout run
in which the PayPal call succeeds. -/
def dbC3final : DB :=
  List.foldl applySettleOp dbC3
    [SettleOp.sale evC1 10 (fun _ => true) "o1" "t1", SettleOp.payoutRun (fun _ => true)]

/-- C3 counterexample: after one completed sale ($100 gross, $84.80 net to the
seller) and one completed payout of the whole balance, the stored balance is
0 but `sum(sale amounts) - sum(payout amounts)` is the PayPal fee
0.49 + 0.0349·84.80 = 3.44952 — the invariant over the payout `amount` (net)
fields does NOT hold; the payout debit is the gross balance while the payout
transaction's `amount` is the net. -/
theorem ledger_balance_cex :
    balanceOf dbC3final "seller1" = 0 ∧
    saleAmountSum dbC3final "seller1" - payoutAmountSum dbC3final "seller1" =
      43119 / 12500 ∧
    saleAmountSum dbC3final "seller1" - payoutAmountSum dbC3final "seller1" ≠
      balanceOf dbC3final "seller1" := by
  have hsEmail : isEmail "s@pp.co" = true := by decide
  have hfold : dbC3final =
      processWeeklyPayouts (stripeWebhook dbC3 evC1 10 (fun _ => true) "o1" "t1")
        (fun _ => true) := rfl
  have hW := stripeWebhook_fulfill dbC3 evC1 10 (fun _ => true) "o1" "t1" sC1 pC1
    (by decide) rfl rfl rfl rfl rfl
  rw [hfold, hW]
  simp [processWeeklyPayouts, eligibleUsers, lowBalanceUsers, weeklyStep, lowNoticeStep,
    processPayout, setMergeBalance, computeSaleSplit, balanceOf,
    saleAmountSum, payoutAmountSum, saleTxnsFor, payoutTxnsFor, dbC3, userS, pC1, sC1,
    evC1, STRIPE_FEE_RATE, STRIPE_FEE_FIXED, PLATFORM_RATE, List.filter, hsEmail]
  norm_num [MIN_PAYOUT, payoutFeeOf, PAYPAL_FEE_FIXED, PAYPAL_FEE_RATE]
  try simp [processWeeklyPayouts, eligibleUsers, lowBalanceUsers, weeklyStep, lowNoticeStep,
    processPayout, setMergeBalance, balanceOf, saleAmountSum, payoutAmountSum,
    saleTxnsFor, payoutTxnsFor, List.filter, hsEmail]
  try norm_num [MIN_PAYOUT, payoutFeeOf, PAYPAL_FEE_FIXED, PAYPAL_FEE_RATE]
  try simp [processWeeklyPayouts, eligibleUsers, lowBalanceUsers, weeklyStep, lowNoticeStep,
    processPayout, setMergeBalance, balanceOf, saleAmountSum, payoutAmountSum,
    saleTxnsFor, payoutTxnsFor, List.filter, hsEmail]
  try norm_num [MIN_PAYOUT, payoutFeeOf, PAYPAL_FEE_FIXED, PAYPAL_FEE_RATE]

/-- Witness for the amended C3 at the concrete scenario: the gross-payout
ledger identity holds for the seller after the sale-then-payout run. -/
theorem ledger_invariant_gross_witness :
    saleAmountSum dbC3final "seller1" - payoutGrossSum dbC3final "seller1" =
      balanceOf dbC3final "seller1" := by
  have h0 : LedgerInv dbC3 := by
    intro uid
    have h1 : saleTxnsFor dbC3 uid = [] := rfl
    have h2 : payoutTxnsFor dbC3 uid = [] := rfl
    unfold saleAmountSum payoutGrossSum
    rw [h1, h2]
    unfold balanceOf
    cases hf : dbC3.users.find? (fun x => x.uid == uid) with
    | none => simp
    | some w =>
      have hw : w = userS := by
        have hmem := List.mem_of_find?_eq_some hf
        simpa [dbC3] using hmem
      rw [hw]
      simp [userS]
  exact ledger_invariant_gross dbC3
    [SettleOp.sale evC1 10 (fun _ => true) "o1" "t1", SettleOp.payoutRun (fun _ => true)]
    h0 "seller1"
